import Mathlib

/-!
Verification development for the polymarket-mcp normalization/query layer.

The definitions below are a shallow embedding of the repository's Python
source: the pydantic data model of `datamodel/objects.py`, the liveness
filter and pagination loop of `client/polymarket.py`, the mid-price
computation of `client/clob.py`, the account reads of `client/data.py`,
and the tool handlers of `server.py`.  Machine floats are modelled as
rationals, Python `datetime` values as microsecond counts with an
optional UTC offset, and Python exceptions as `Option`/`Except` failure.
-/

namespace PolyMCP

/-- JSON values as decoded from the upstream HTTP services.  Python makes no
distinction we need between ints and floats here, so both map to `num`. -/
inductive Json where
  | null
  | bool (b : Bool)
  | num (q : ℚ)
  | str (s : String)
  | arr (elems : List Json)
  | obj (fields : List (String × Json))

/-- Lookup of a key in a JSON object's field list (first binding wins,
mirroring a Python dict in which keys are unique). -/
def getKey (o : List (String × Json)) (k : String) : Option Json :=
  match o with
  | [] => none
  | (k2, v) :: rest => if k2 = k then some v else getKey rest k

/-- `RewardRate` of `datamodel/objects.py`. -/
structure RewardRate where
  asset_address : String
  rewards_daily_rate : ℚ
deriving DecidableEq, Repr

/-- The `rates` field of `Rewards` accepts a single record or a list. -/
inductive RatesValue where
  | single (r : RewardRate)
  | multiple (rs : List RewardRate)
deriving DecidableEq, Repr

/-- `Rewards` of `datamodel/objects.py`: `rates` is optional, `min_size` and
`max_spread` are floats defaulting to 0. -/
structure Rewards where
  rates : Option RatesValue
  min_size : ℚ
  max_spread : ℚ
deriving DecidableEq, Repr

/-- `TokenQuote` of `datamodel/objects.py`. -/
structure TokenQuote where
  token_id : String
  outcome : String
  price : Option ℚ
  winner : Option Bool
deriving DecidableEq, Repr

/-- `SimpleMarket` of `datamodel/objects.py`, fields in source order. -/
structure SimpleMarket where
  condition_id : String
  active : Bool
  closed : Bool
  archived : Bool
  accepting_orders : Bool
  enable_order_book : Option Bool
  accepting_order_timestamp : Option String
  question_id : Option String
  question : Option String
  description : Option String
  market_slug : Option String
  end_date_iso : Option String
  game_start_time : Option String
  seconds_delay : Option Int
  fpmm : Option String
  maker_base_fee : Option ℚ
  taker_base_fee : Option ℚ
  notifications_enabled : Option Bool
  neg_risk : Option Bool
  neg_risk_market_id : Option String
  neg_risk_request_id : Option String
  icon : Option String
  image : Option String
  is_50_50_outcome : Option Bool
  tags : Option (List String)
  minimum_order_size : Option ℚ
  minimum_tick_size : Option ℚ
  liquidity : Option ℚ
  rewards : Rewards
  tokens : List TokenQuote
deriving DecidableEq, Repr

def digitVal (c : Char) : Nat := c.toNat - 48

def digitsToNat (cs : List Char) : Nat :=
  cs.foldl (fun acc c => acc * 10 + digitVal c) 0

/-- ASCII lower-casing of a character sequence (Python `str.lower` and
pydantic's case-insensitive bool strings, at the ASCII level of this
repository's data). -/
def lowerCs (cs : List Char) : List Char := cs.map Char.toLower

/-- Exponent suffix of a float literal: empty, or `e`/`E` with an optional
sign and at least one digit. -/
def parseExpTail (cs : List Char) : Option Int :=
  match cs with
  | [] => some 0
  | e :: rest =>
    if e = 'e' ∨ e = 'E' then
      match rest with
      | '+' :: ds =>
        if ds ≠ [] ∧ ds.all (fun c => c.isDigit) then some (digitsToNat ds)
        else none
      | '-' :: ds =>
        if ds ≠ [] ∧ ds.all (fun c => c.isDigit) then some (-(digitsToNat ds : Int))
        else none
      | ds =>
        if ds ≠ [] ∧ ds.all (fun c => c.isDigit) then some (digitsToNat ds)
        else none
    else none

/-- Numeric-string parsing (Python `float(s)`, and pydantic's lax
string-to-number coercion) on a finite decimal literal, as an exact
rational: optional sign, digits with an optional decimal point (at least
one digit overall), and an optional exponent. -/
def pyFloat (s : String) : Option ℚ :=
  let (sgn, cs) : ℚ × List Char :=
    match s.data with
    | '+' :: rest => (1, rest)
    | '-' :: rest => (-1, rest)
    | cs => (1, cs)
  let ip := cs.takeWhile (fun c => c.isDigit)
  let r1 := cs.dropWhile (fun c => c.isDigit)
  match r1 with
  | '.' :: r2 =>
    let fp := r2.takeWhile (fun c => c.isDigit)
    let r3 := r2.dropWhile (fun c => c.isDigit)
    if ip = [] ∧ fp = [] then none
    else match parseExpTail r3 with
      | none => none
      | some e =>
        some (sgn * ((digitsToNat (ip ++ fp) : ℚ) / (10 : ℚ) ^ fp.length) *
          (10 : ℚ) ^ e)
  | _ =>
    if ip = [] then none
    else match parseExpTail r1 with
      | none => none
      | some e => some (sgn * (digitsToNat ip : ℚ) * (10 : ℚ) ^ e)

/-- Pydantic v2 lax bool from a string: the usual truthy/falsy words,
case-insensitively. -/
def boolFromStr (s : String) : Option Bool :=
  let w := lowerCs s.data
  if w = "true".data ∨ w = "t".data ∨ w = "yes".data ∨ w = "y".data ∨
      w = "1".data ∨ w = "on".data then some true
  else if w = "false".data ∨ w = "f".data ∨ w = "no".data ∨ w = "n".data ∨
      w = "0".data ∨ w = "off".data then some false
  else none

/-- Pydantic v2 lax `bool`: a JSON bool, the numbers 0/1 (int or float),
or a truthy/falsy string. -/
def laxBool (j : Json) : Option Bool :=
  match j with
  | .bool b => some b
  | .num q => if q = 0 then some false else if q = 1 then some true else none
  | .str s => boolFromStr s
  | _ => none

/-- Pydantic v2 lax `float`: a JSON number, or a numeric string. -/
def laxFloat (j : Json) : Option ℚ :=
  match j with
  | .num q => some q
  | .str s => pyFloat s
  | _ => none

/-- Pydantic v2 lax `int`: an integral JSON number, or a numeric string
with integral value. -/
def laxInt (j : Json) : Option Int :=
  match j with
  | .num q => if q.den = 1 then some q.num else none
  | .str s =>
    match pyFloat s with
    | some q => if q.den = 1 then some q.num else none
    | none => none
  | _ => none

/-- The values `laxBool` accepts. -/
def laxBoolOk (j : Json) : Bool :=
  match j with
  | .bool _ => true
  | .num q => q = 0 ∨ q = 1
  | .str s => (boolFromStr s).isSome
  | _ => false

/-- The values `laxFloat` accepts. -/
def laxFloatOk (j : Json) : Bool :=
  match j with
  | .num _ => true
  | .str s => (pyFloat s).isSome
  | _ => false

/-- The values `laxInt` accepts. -/
def laxIntOk (j : Json) : Bool :=
  match j with
  | .num q => q.den = 1
  | .str s =>
    match pyFloat s with
    | some q => q.den = 1
    | none => false
  | _ => false

/-- Sequential monadic map over `Option` (structural recursion; the
first failing element makes the whole map fail). -/
def mapOption {α β : Type} (f : α → Option β) (l : List α) : Option (List β) :=
  match l with
  | [] => some []
  | x :: xs => do
    let y ← f x
    let ys ← mapOption f xs
    pure (y :: ys)

/-! ### Field validators

Each combinator models pydantic-v2 lax-mode validation of one field of
an object payload `o`: it either produces the validated value or fails
(`none`). Bool fields also accept 0/1 and truthy/falsy strings, and
float/int fields also accept numeric strings, per `laxBool`, `laxFloat`
and `laxInt`; `str` and `List[str]` fields accept only strings.
`vReq…` are required fields; `vOpt…` are `Optional[...] = None` fields
(absent or JSON null become `none`); `vOptFloatDef` is an
`Optional[float] = d` field (absent becomes the default `d`, an explicit
null becomes `none`); `vFloatDef0` is a plain `float = 0` field. -/

def vReqStr (o : List (String × Json)) (k : String) : Option String :=
  match getKey o k with
  | some (.str s) => some s
  | _ => none

def vReqBool (o : List (String × Json)) (k : String) : Option Bool :=
  match getKey o k with
  | some j => laxBool j
  | none => none

def vReqFloat (o : List (String × Json)) (k : String) : Option ℚ :=
  match getKey o k with
  | some j => laxFloat j
  | none => none

def vOptStr (o : List (String × Json)) (k : String) : Option (Option String) :=
  match getKey o k with
  | none => some none
  | some .null => some none
  | some (.str s) => some (some s)
  | _ => none

def vOptBool (o : List (String × Json)) (k : String) : Option (Option Bool) :=
  match getKey o k with
  | none => some none
  | some .null => some none
  | some j => (laxBool j).map some

def vOptFloat (o : List (String × Json)) (k : String) : Option (Option ℚ) :=
  match getKey o k with
  | none => some none
  | some .null => some none
  | some j => (laxFloat j).map some

def vOptInt (o : List (String × Json)) (k : String) : Option (Option Int) :=
  match getKey o k with
  | none => some none
  | some .null => some none
  | some j => (laxInt j).map some

def vOptStrList (o : List (String × Json)) (k : String) : Option (Option (List String)) :=
  match getKey o k with
  | none => some none
  | some .null => some none
  | some (.arr xs) =>
    (mapOption (fun j => match j with | .str s => some s | _ => none) xs).map some
  | _ => none

def vOptFloatDef (o : List (String × Json)) (k : String) (d : ℚ) : Option (Option ℚ) :=
  match getKey o k with
  | none => some (some d)
  | some .null => some none
  | some j => (laxFloat j).map some

def vFloatDef0 (o : List (String × Json)) (k : String) : Option ℚ :=
  match getKey o k with
  | none => some 0
  | some j => laxFloat j

/-- Validation of one `RewardRate` payload. -/
def RewardRate.model_validate (j : Json) : Option RewardRate :=
  match j with
  | .obj ro => do
    let a ← vReqStr ro "asset_address"
    let r ← vReqFloat ro "rewards_daily_rate"
    pure ⟨a, r⟩
  | _ => none

/-- The `rates` field: absent/null, a single record, or a list of records. -/
def vRates (ro : List (String × Json)) : Option (Option RatesValue) :=
  match getKey ro "rates" with
  | none => some none
  | some .null => some none
  | some (.obj r2) => (RewardRate.model_validate (.obj r2)).map (fun r => some (RatesValue.single r))
  | some (.arr xs) => (mapOption RewardRate.model_validate xs).map (fun rs => some (RatesValue.multiple rs))
  | _ => none

/-- Validation of one `Rewards` payload. -/
def Rewards.model_validate (j : Json) : Option Rewards :=
  match j with
  | .obj ro => do
    let rates ← vRates ro
    let ms ← vFloatDef0 ro "min_size"
    let msp ← vFloatDef0 ro "max_spread"
    pure ⟨rates, ms, msp⟩
  | _ => none

/-- Validation of one `TokenQuote` payload. -/
def TokenQuote.model_validate (j : Json) : Option TokenQuote :=
  match j with
  | .obj tq => do
    let tid ← vReqStr tq "token_id"
    let oc ← vReqStr tq "outcome"
    let pr ← vOptFloat tq "price"
    let w ← vOptBool tq "winner"
    pure ⟨tid, oc, pr, w⟩
  | _ => none

/-- The required `rewards` field of `SimpleMarket`. -/
def vRewards (o : List (String × Json)) : Option Rewards :=
  match getKey o "rewards" with
  | some j => Rewards.model_validate j
  | none => none

/-- The required `tokens` field of `SimpleMarket`. -/
def vTokens (o : List (String × Json)) : Option (List TokenQuote) :=
  match getKey o "tokens" with
  | some (.arr xs) => mapOption TokenQuote.model_validate xs
  | _ => none

/-- The required identity/state fields of a market payload. -/
def vGating (o : List (String × Json)) :
    Option (String × Bool × Bool × Bool × Bool) := do
  let condition_id ← vReqStr o "condition_id"
  let active ← vReqBool o "active"
  let closed ← vReqBool o "closed"
  let archived ← vReqBool o "archived"
  let accepting_orders ← vReqBool o "accepting_orders"
  pure (condition_id, active, closed, archived, accepting_orders)

/-- First group of optional fields, in source order. -/
def vMeta1 (o : List (String × Json)) :
    Option (Option Bool × Option String × Option String × Option String ×
      Option String × Option String) := do
  let enable_order_book ← vOptBool o "enable_order_book"
  let accepting_order_timestamp ← vOptStr o "accepting_order_timestamp"
  let question_id ← vOptStr o "question_id"
  let question ← vOptStr o "question"
  let description ← vOptStr o "description"
  let market_slug ← vOptStr o "market_slug"
  pure (enable_order_book, accepting_order_timestamp, question_id, question,
    description, market_slug)

/-- Second group of optional fields, in source order. -/
def vMeta2 (o : List (String × Json)) :
    Option (Option String × Option String × Option Int × Option String ×
      Option ℚ × Option ℚ) := do
  let end_date_iso ← vOptStr o "end_date_iso"
  let game_start_time ← vOptStr o "game_start_time"
  let seconds_delay ← vOptInt o "seconds_delay"
  let fpmm ← vOptStr o "fpmm"
  let maker_base_fee ← vOptFloat o "maker_base_fee"
  let taker_base_fee ← vOptFloat o "taker_base_fee"
  pure (end_date_iso, game_start_time, seconds_delay, fpmm, maker_base_fee,
    taker_base_fee)

/-- Third group of optional fields, in source order. -/
def vMeta3 (o : List (String × Json)) :
    Option (Option Bool × Option Bool × Option String × Option String ×
      Option String × Option String) := do
  let notifications_enabled ← vOptBool o "notifications_enabled"
  let neg_risk ← vOptBool o "neg_risk"
  let neg_risk_market_id ← vOptStr o "neg_risk_market_id"
  let neg_risk_request_id ← vOptStr o "neg_risk_request_id"
  let icon ← vOptStr o "icon"
  let image ← vOptStr o "image"
  pure (notifications_enabled, neg_risk, neg_risk_market_id,
    neg_risk_request_id, icon, image)

/-- Fourth group of optional fields, in source order; `liquidity` defaults
to 10000.0 when the key is absent. -/
def vMeta4 (o : List (String × Json)) :
    Option (Option Bool × Option (List String) × Option ℚ × Option ℚ ×
      Option ℚ) := do
  let is_50_50_outcome ← vOptBool o "is_50_50_outcome"
  let tags ← vOptStrList o "tags"
  let minimum_order_size ← vOptFloat o "minimum_order_size"
  let minimum_tick_size ← vOptFloat o "minimum_tick_size"
  let liquidity ← vOptFloatDef o "liquidity" 10000
  pure (is_50_50_outcome, tags, minimum_order_size, minimum_tick_size,
    liquidity)

/-- `SimpleMarket.model_validate`: normalization of one upstream market
payload.  A non-object payload fails; unknown keys are never consulted
(`extra = ignore`).  Every declared field is validated by the group
helpers above and the record is assembled from the results. -/
def SimpleMarket.model_validate (j : Json) : Option SimpleMarket :=
  match j with
  | .obj o => do
    let g ← vGating o
    let rewards ← vRewards o
    let tokens ← vTokens o
    let a ← vMeta1 o
    let b ← vMeta2 o
    let c ← vMeta3 o
    let d ← vMeta4 o
    pure (SimpleMarket.mk g.1 g.2.1 g.2.2.1 g.2.2.2.1 g.2.2.2.2
      a.1 a.2.1 a.2.2.1 a.2.2.2.1 a.2.2.2.2.1 a.2.2.2.2.2
      b.1 b.2.1 b.2.2.1 b.2.2.2.1 b.2.2.2.2.1 b.2.2.2.2.2
      c.1 c.2.1 c.2.2.1 c.2.2.2.1 c.2.2.2.2.1 c.2.2.2.2.2
      d.1 d.2.1 d.2.2.1 d.2.2.2.1 d.2.2.2.2 rewards tokens)
  | _ => none

/-! ### Presence/typing checks

Boolean predicates over the raw payload, stating that a field is present
and correctly typed (for required fields) or absent/null/correctly typed
(for optional ones).  They are used to state what `model_validate`
accepts. -/

def jHasStr (o : List (String × Json)) (k : String) : Bool :=
  match getKey o k with
  | some (.str _) => true
  | _ => false

def jHasBool (o : List (String × Json)) (k : String) : Bool :=
  match getKey o k with
  | some j => laxBoolOk j
  | none => false

def jHasFloat (o : List (String × Json)) (k : String) : Bool :=
  match getKey o k with
  | some j => laxFloatOk j
  | none => false

def jOptStrOk (o : List (String × Json)) (k : String) : Bool :=
  match getKey o k with
  | none => true
  | some .null => true
  | some (.str _) => true
  | _ => false

def jOptBoolOk (o : List (String × Json)) (k : String) : Bool :=
  match getKey o k with
  | none => true
  | some .null => true
  | some j => laxBoolOk j

def jOptFloatOk (o : List (String × Json)) (k : String) : Bool :=
  match getKey o k with
  | none => true
  | some .null => true
  | some j => laxFloatOk j

def jOptIntOk (o : List (String × Json)) (k : String) : Bool :=
  match getKey o k with
  | none => true
  | some .null => true
  | some j => laxIntOk j

def jOptStrListOk (o : List (String × Json)) (k : String) : Bool :=
  match getKey o k with
  | none => true
  | some .null => true
  | some (.arr xs) => xs.all (fun j => match j with | .str _ => true | _ => false)
  | _ => false

def jFloatDef0Ok (o : List (String × Json)) (k : String) : Bool :=
  match getKey o k with
  | none => true
  | some j => laxFloatOk j

def rewardRateOk (j : Json) : Bool :=
  match j with
  | .obj ro => jHasStr ro "asset_address" && jHasFloat ro "rewards_daily_rate"
  | _ => false

def ratesOk (ro : List (String × Json)) : Bool :=
  match getKey ro "rates" with
  | none => true
  | some .null => true
  | some (.obj r2) => rewardRateOk (.obj r2)
  | some (.arr xs) => xs.all rewardRateOk
  | _ => false

def rewardsOk (o : List (String × Json)) : Bool :=
  match getKey o "rewards" with
  | some (.obj ro) => ratesOk ro && jFloatDef0Ok ro "min_size" && jFloatDef0Ok ro "max_spread"
  | _ => false

def tokenOk (j : Json) : Bool :=
  match j with
  | .obj tq => jHasStr tq "token_id" && jHasStr tq "outcome" &&
      jOptFloatOk tq "price" && jOptBoolOk tq "winner"
  | _ => false

def tokensOk (o : List (String × Json)) : Bool :=
  match getKey o "tokens" with
  | some (.arr xs) => xs.all tokenOk
  | _ => false

/-- The fields whose presence, correctly typed, `model_validate` requires. -/
def requiredOk (o : List (String × Json)) : Bool :=
  jHasStr o "condition_id" && jHasBool o "active" && jHasBool o "closed" &&
  jHasBool o "archived" && jHasBool o "accepting_orders" &&
  rewardsOk o && tokensOk o

/-- Every optional field is absent, null, or correctly typed. -/
def optionalOk (o : List (String × Json)) : Bool :=
  jOptBoolOk o "enable_order_book" && jOptStrOk o "accepting_order_timestamp" &&
  jOptStrOk o "question_id" && jOptStrOk o "question" &&
  jOptStrOk o "description" && jOptStrOk o "market_slug" &&
  jOptStrOk o "end_date_iso" && jOptStrOk o "game_start_time" &&
  jOptIntOk o "seconds_delay" && jOptStrOk o "fpmm" &&
  jOptFloatOk o "maker_base_fee" && jOptFloatOk o "taker_base_fee" &&
  jOptBoolOk o "notifications_enabled" && jOptBoolOk o "neg_risk" &&
  jOptStrOk o "neg_risk_market_id" && jOptStrOk o "neg_risk_request_id" &&
  jOptStrOk o "icon" && jOptStrOk o "image" &&
  jOptBoolOk o "is_50_50_outcome" && jOptStrListOk o "tags" &&
  jOptFloatOk o "minimum_order_size" && jOptFloatOk o "minimum_tick_size" &&
  jOptFloatOk o "liquidity"

/-- Declared field names of `SimpleMarket`; any other payload key is
ignored by validation. -/
def fieldKeys : List String :=
  ["condition_id", "active", "closed", "archived", "accepting_orders",
   "enable_order_book", "accepting_order_timestamp", "question_id", "question",
   "description", "market_slug", "end_date_iso", "game_start_time",
   "seconds_delay", "fpmm", "maker_base_fee", "taker_base_fee",
   "notifications_enabled", "neg_risk", "neg_risk_market_id",
   "neg_risk_request_id", "icon", "image", "is_50_50_outcome", "tags",
   "minimum_order_size", "minimum_tick_size", "liquidity", "rewards", "tokens"]

/-! ### Derived views (computed fields of `SimpleMarket`) -/

/-- `outcomes`: ordered outcome labels of the tokens. -/
def outcomes (m : SimpleMarket) : List String :=
  m.tokens.map (fun t => t.outcome)

/-- `outcome_prices`: ordered token prices, a null price coerced to 0.0. -/
def outcome_prices (m : SimpleMarket) : List ℚ :=
  m.tokens.map (fun t => match t.price with | some p => p | none => 0)

/-- `clob_token_ids`: ordered token identifiers. -/
def clob_token_ids (m : SimpleMarket) : List String :=
  m.tokens.map (fun t => t.token_id)

/-! ### Python `datetime` model

A `datetime` value is a wall-clock instant measured in microseconds from
1970-01-01T00:00:00 of its own clock, plus an optional UTC offset in
microseconds (`none` models a naive value).  Comparison of two aware
values compares UTC instants; comparing naive with aware raises
(`none`). -/

structure PyDatetime where
  wall : Int
  tz : Option Int
deriving DecidableEq, Repr

/-- Python `a > b` on datetimes: aware/aware compares UTC instants,
naive/naive compares wall clocks, mixed raises `TypeError` (`none`). -/
def pyGtDatetime (a b : PyDatetime) : Option Bool :=
  match a.tz, b.tz with
  | some oa, some ob => some (decide (a.wall - oa > b.wall - ob))
  | none, none => some (decide (a.wall > b.wall))
  | _, _ => none

/-- Two leading decimal digits, returning their value and the rest. -/
def parse2 : List Char → Option (Nat × List Char)
  | a :: b :: rest =>
    if a.isDigit && b.isDigit then some (digitVal a * 10 + digitVal b, rest)
    else none
  | _ => none

/-- `_parse_hh_mm_ss_ff` of CPython's datetime: `HH[:MM[:SS[.fff[fff]]]]`,
returning hours, minutes, seconds and microseconds. -/
def parseHMSF (tcs : List Char) : Option (Nat × Nat × Nat × Nat) :=
  match parse2 tcs with
  | none => none
  | some (h, rest1) =>
    match rest1 with
    | [] => some (h, 0, 0, 0)
    | c1 :: rest2 =>
      if c1 ≠ ':' then none
      else match parse2 rest2 with
        | none => none
        | some (mi, rest3) =>
          match rest3 with
          | [] => some (h, mi, 0, 0)
          | c2 :: rest4 =>
            if c2 ≠ ':' then none
            else match parse2 rest4 with
              | none => none
              | some (s, rest5) =>
                match rest5 with
                | [] => some (h, mi, s, 0)
                | '.' :: frac =>
                  if frac.length = 3 ∧ frac.all (fun c => c.isDigit) then
                    some (h, mi, s, digitsToNat frac * 1000)
                  else if frac.length = 6 ∧ frac.all (fun c => c.isDigit) then
                    some (h, mi, s, digitsToNat frac)
                  else none
                | _ => none

/-- CPython's timezone start position: one past the first `-` in the time
string if any, else one past the first `+`, else 0 meaning "no offset". -/
def tzPos (tcs : List Char) : Nat :=
  match tcs.indexOf? '-' with
  | some i => i + 1
  | none =>
    match tcs.indexOf? '+' with
    | some j => j + 1
    | none => 0

/-- `_parse_isoformat_time`: time components plus an optional UTC offset in
microseconds.  The offset substring must have length 5, 8 or 15 and the
resulting offset must be strictly within one day. -/
def parseIsoTime (tcs : List Char) :
    Option (Nat × Nat × Nat × Nat × Option Int) :=
  let tp := tzPos tcs
  let timestr := if tp > 0 then tcs.take (tp - 1) else tcs
  match parseHMSF timestr with
  | none => none
  | some (h, mi, s, us) =>
    if tp = 0 then some (h, mi, s, us, none)
    else
      let tzcs := tcs.drop tp
      if tzcs.length = 5 ∨ tzcs.length = 8 ∨ tzcs.length = 15 then
        match parseHMSF tzcs with
        | none => none
        | some (th, tmi, ts, tus) =>
          let mag : Int := (th : Int) * 3600000000 + (tmi : Int) * 60000000 +
            (ts : Int) * 1000000 + (tus : Int)
          let sign : Int := if tcs.get? (tp - 1) = some '-' then -1 else 1
          let off := sign * mag
          if -86400000000 < off ∧ off < 86400000000 then
            some (h, mi, s, us, some off)
          else none
      else none

/-- `_parse_isoformat_date`: exactly `YYYY-MM-DD`. -/
def parseIsoDate (cs : List Char) : Option (Nat × Nat × Nat) :=
  match cs with
  | [y1, y2, y3, y4, c1, m1, m2, c2, d1, d2] =>
    if y1.isDigit && y2.isDigit && y3.isDigit && y4.isDigit &&
        (c1 = '-') && m1.isDigit && m2.isDigit && (c2 = '-') &&
        d1.isDigit && d2.isDigit then
      some (digitsToNat [y1, y2, y3, y4], digitVal m1 * 10 + digitVal m2,
        digitVal d1 * 10 + digitVal d2)
    else none
  | _ => none

def isLeapYear (y : Nat) : Bool :=
  (y % 4 = 0 && y % 100 ≠ 0) || y % 400 = 0

def daysInMonth (y mo : Nat) : Nat :=
  if mo = 2 then (if isLeapYear y then 29 else 28)
  else if mo = 4 ∨ mo = 6 ∨ mo = 9 ∨ mo = 11 then 30
  else 31

/-- Days from 1970-01-01 to the civil date `y-mo-d` (proleptic Gregorian). -/
def civilDays (y mo d : Nat) : Int :=
  let yi : Int := if mo ≤ 2 then (y : Int) - 1 else (y : Int)
  let era : Int := Int.fdiv yi 400
  let yoe : Int := yi - era * 400
  let mp : Int := if mo > 2 then (mo : Int) - 3 else (mo : Int) + 9
  let doy : Int := Int.fdiv (153 * mp + 2) 5 + (d : Int) - 1
  let doe : Int := yoe * 365 + Int.fdiv yoe 4 - Int.fdiv yoe 100 + doy
  era * 146097 + doe - 719468

/-- Wall-clock microseconds since the epoch of a civil date-time. -/
def wallMicros (y mo d h mi s us : Nat) : Int :=
  civilDays y mo d * 86400000000 + (h : Int) * 3600000000 +
    (mi : Int) * 60000000 + (s : Int) * 1000000 + (us : Int)

/-- `datetime.fromisoformat` (Python 3.10 grammar) on a list of characters,
with the range validation done by the `datetime` constructor. -/
def fromisoformat (cs : List Char) : Option PyDatetime :=
  if cs.length < 10 then none
  else match parseIsoDate (cs.take 10) with
    | none => none
    | some (y, mo, d) =>
      if 1 ≤ y ∧ y ≤ 9999 ∧ 1 ≤ mo ∧ mo ≤ 12 ∧ 1 ≤ d ∧ d ≤ daysInMonth y mo then
        if cs.length = 10 then some ⟨wallMicros y mo d 0 0 0 0, none⟩
        else match parseIsoTime (cs.drop 11) with
          | none => none
          | some (h, mi, s, us, off) =>
            if h ≤ 23 ∧ mi ≤ 59 ∧ s ≤ 59 ∧ us ≤ 999999 then
              some ⟨wallMicros y mo d h mi s us, off⟩
            else none
      else none

/-- `datetime.max.replace(tzinfo=timezone.utc)`:
9999-12-31T23:59:59.999999+00:00. -/
def pyDatetimeMax : PyDatetime :=
  ⟨wallMicros 9999 12 31 23 59 59 999999, some 0⟩

/-- `parse_iso8601` of `client/polymarket.py`: an empty or absent string
becomes `datetime.max` in UTC; a trailing `Z` is rewritten to `+00:00`;
anything else goes to `fromisoformat`. -/
def parse_iso8601 (s? : Option String) : Option PyDatetime :=
  match s? with
  | none => some pyDatetimeMax
  | some s =>
    if s.data = [] then some pyDatetimeMax
    else fromisoformat
      (if s.data.getLast? = some 'Z' then s.data.dropLast ++ "+00:00".data
       else s.data)

/-- `Polymarket.is_live`: the four gating booleans are tested first
(Python's `and` short-circuits), then the parsed end date is compared to
`now`.  A parse error or a naive/aware comparison raises (`none`). -/
def is_live (m : SimpleMarket) (now : PyDatetime) : Option Bool :=
  if m.active && !m.closed && !m.archived && m.accepting_orders then
    match parse_iso8601 m.end_date_iso with
    | none => none
    | some dt => pyGtDatetime dt now
  else some false

/-- The UTC instant of a market's parsed end date, defined when the end
date parses to an offset-aware value. -/
def endInstantUtc (m : SimpleMarket) : Option Int :=
  match parse_iso8601 m.end_date_iso with
  | some dt =>
    match dt.tz with
    | some off => some (dt.wall - off)
    | none => none
  | none => none

/-! ### Order book and mid price (`client/clob.py`)

Price levels arrive as decimal strings; Python `float(...)` is modelled
as an exact rational parser (`none` models `ValueError`), and Python
`round(x, 4)` as round-half-to-even at four decimal places. -/

/-- One level of `OrderBookSummary`: price and size strings. -/
structure OrderLevel where
  price : String
  size : String
deriving DecidableEq, Repr

/-- An order-book snapshot: bid and ask levels in upstream order. -/
structure OrderBookSummary where
  bids : List OrderLevel
  asks : List OrderLevel
deriving DecidableEq, Repr

/-- Round to the nearest integer, ties to even (Python `round`). -/
def roundHalfEven (x : ℚ) : Int :=
  let f := ⌊x⌋
  let r := x - (f : ℚ)
  if r < 1 / 2 then f
  else if 1 / 2 < r then f + 1
  else if f % 2 = 0 then f else f + 1

/-- Python `round(x, 4)` on the rational model. -/
def round4 (x : ℚ) : ℚ := (roundHalfEven (x * 10000) : ℚ) / 10000

/-- One side of the mid-price computation: `none` is a raised parse error,
`some none` is Python `None` for an empty side, otherwise the parsed
prices folded with `agg` (max for bids, min for asks), scanning the whole
unsorted sequence. -/
def sideBest (agg : ℚ → ℚ → ℚ) (side : List OrderLevel) : Option (Option ℚ) :=
  if side = [] then some none
  else match mapOption (fun lvl => pyFloat lvl.price) side with
    | none => none
    | some [] => none
    | some (p :: ps) => some (some (ps.foldl agg p))

/-- `CLOBClient.get_mid_from_book`: best bid is the maximum bid price, best
ask the minimum ask price; any empty side or parse failure yields `none`,
otherwise the average of the two rounded to 4 decimals. -/
def get_mid_from_book (ob : OrderBookSummary) : Option ℚ :=
  match sideBest max ob.bids with
  | none => none
  | some bb =>
    match sideBest min ob.asks with
    | none => none
    | some ba =>
      match bb, ba with
      | some b, some a => some (round4 ((b + a) / 2))
      | _, _ => none

/-! ### Pagination (`Polymarket.get_all_markets`)

The upstream is modelled as the sequence of responses the sampling API
returns to the successive calls of the loop; each response carries a data
array and the next cursor (`none` models an absent key). -/

/-- One response of `client.get_sampling_markets`. -/
structure ClobPage where
  data : List Json
  next_cursor : Option String

/-- The loop's exit test: `not cursor or cursor == "LTE="`. -/
def isTerminalCursor : Option String → Bool
  | none => true
  | some c => c = "" || c = "LTE="

/-- Rows of one page that survive `SimpleMarket.model_validate`; a row
that fails validation is skipped. -/
def pageRows (p : ClobPage) : List SimpleMarket :=
  p.data.filterMap SimpleMarket.model_validate

/-- `Polymarket.get_all_markets` over the response sequence: every page's
valid rows are appended in order; the loop stops after the first page
whose next cursor is absent, empty, or the `"LTE="` sentinel. -/
def get_all_markets : List ClobPage → List SimpleMarket
  | [] => []
  | p :: rest =>
    if isTerminalCursor p.next_cursor then pageRows p
    else pageRows p ++ get_all_markets rest

/-! ### Market order fulfillment policy (`server.py` / `client/clob.py`)

`OrderType` is the enum of the external trading-venue client; its member
names are taken from the repository's own documentation of
`place_market_order` ("Order type (FOK, IOC, GTC)"). -/

inductive OrderType where
  | FOK
  | IOC
  | GTC
deriving DecidableEq, Repr

def orderTypeName : OrderType → String
  | .FOK => "FOK"
  | .IOC => "IOC"
  | .GTC => "GTC"

/-- `getattr(OrderType, order_type, OrderType.FOK)`: the member of that
name when there is one, else the `FOK` default. -/
def getattrOrderType (s : String) : OrderType :=
  if s = "FOK" then .FOK
  else if s = "IOC" then .IOC
  else if s = "GTC" then .GTC
  else .FOK

/-- What `CLOBClient.execute_market_order` submits to the venue. -/
structure MarketOrderSubmission where
  token_id : String
  amount : ℚ
  orderType : OrderType
deriving DecidableEq, Repr

def execute_market_order (token_id : String) (amount : ℚ)
    (order_type : OrderType) : MarketOrderSubmission :=
  ⟨token_id, amount, order_type⟩

/-- The `place_market_order` tool handler's order construction: the policy
string is resolved through `getattr` with the `FOK` fallback. -/
def place_market_order (token_id : String) (amount : ℚ)
    (order_type : String) : MarketOrderSubmission :=
  execute_market_order token_id amount (getattrOrderType order_type)

/-! ### Free-text search -/

/-- `needle` occurs as a contiguous substring of `hay`. -/
def startsWithCs : List Char → List Char → Bool
  | [], _ => true
  | _ :: _, [] => false
  | a :: as2, b :: bs => a = b && startsWithCs as2 bs

def substrCs (needle : List Char) : List Char → Bool
  | [] => needle.isEmpty
  | c :: rest => startsWithCs needle (c :: rest) || substrCs needle rest

/-- The query matches a record when its question, lower-cased, contains the
lower-cased query; an absent question never matches. -/
def questionMatches (query : String) (m : SimpleMarket) : Bool :=
  match m.question with
  | none => false
  | some q => substrCs (lowerCs query.data) (lowerCs q.data)

/-- Modelled from the spec: `search_markets` is imported by the
repository's tests but missing from `src/server.py`; this follows
section 4.3 of the specification — case-insensitive substring match of
the query against each record's question, input order preserved, with an
optional result-count limit truncating from the front. -/
def search_markets (records : List SimpleMarket) (query : String)
    (limit : Option Nat) : List SimpleMarket :=
  let hits := records.filter (questionMatches query)
  match limit with
  | none => hits
  | some n => hits.take n

/-! ### Tool handlers (`server.py`)

Each `@mcp.tool` handler wraps its body in `try/except Exception` and
returns a dict either way.  A handler is modelled as a function of its
parameters and of the outcome of the underlying client call
(`Except String` carries the stringified exception); the result is the
returned dict as a JSON field list. -/

def userJson : Option String → Json
  | some u => .str u
  | none => .null

/-- `len(x) if isinstance(x, list) else 0`. -/
def countOf : Json → Json
  | .arr xs => .num xs.length
  | _ => .num 0

def tool_get_market (_slug : String) (call : Except String (List Json)) :
    List (String × Json) :=
  match call with
  | .ok markets => [("markets", .arr markets), ("count", .num markets.length)]
  | .error e => [("error", .str ("Error getting market: " ++ e)), ("market", .null)]

def tool_get_markets (_limit : Option Int) (call : Except String (List Json)) :
    List (String × Json) :=
  match call with
  | .ok markets => [("markets", .arr markets), ("count", .num markets.length)]
  | .error e => [("error", .str ("Error getting markets: " ++ e)), ("markets", .arr [])]

def tool_get_order_book (token_id : String)
    (call : Except String OrderBookSummary) : List (String × Json) :=
  match call with
  | .ok ob =>
    [("token_id", .str token_id),
     ("bids", .arr (ob.bids.map (fun l => .obj [("price", .str l.price), ("size", .str l.size)]))),
     ("asks", .arr (ob.asks.map (fun l => .obj [("price", .str l.price), ("size", .str l.size)])))]
  | .error e => [("error", .str ("Error getting order book: " ++ e))]

def tool_get_mid_price (token_id : String) (call : Except String (Option ℚ)) :
    List (String × Json) :=
  match call with
  | .ok mp =>
    [("token_id", .str token_id),
     ("mid_price", match mp with | some q => .num q | none => .null)]
  | .error e => [("error", .str ("Error getting mid price: " ++ e))]

def tool_get_price (token_id side : String) (call : Except String ℚ) :
    List (String × Json) :=
  match call with
  | .ok p => [("token_id", .str token_id), ("side", .str side), ("price", .num p)]
  | .error e => [("error", .str ("Error getting price: " ++ e))]

def tool_place_limit_order (token_id : String) (price size : ℚ) (side : String)
    (call : Except String String) : List (String × Json) :=
  match call with
  | .ok order_id =>
    [("order_id", .str order_id), ("token_id", .str token_id),
     ("price", .num price), ("size", .num size), ("side", .str side)]
  | .error e => [("error", .str ("Error placing limit order: " ++ e))]

def tool_place_market_order (token_id : String) (amount : ℚ)
    (order_type : String) (call : Except String (List (String × Json))) :
    List (String × Json) :=
  match call with
  | .ok r =>
    [("result", .obj r), ("token_id", .str token_id),
     ("amount", .num amount), ("order_type", .str order_type)]
  | .error e => [("error", .str ("Error placing market order: " ++ e))]

def tool_cancel_order (order_id : String)
    (call : Except String (List (String × Json))) : List (String × Json) :=
  match call with
  | .ok r => [("result", .obj r), ("order_id", .str order_id)]
  | .error e => [("error", .str ("Error cancelling order: " ++ e))]

def tool_get_usdc_balance (address : String) (call : Except String ℚ) :
    List (String × Json) :=
  match call with
  | .ok b => [("address", .str address), ("usdc_balance", .num b)]
  | .error e => [("error", .str ("Error getting USDC balance: " ++ e))]

def tool_get_portfolio_value (user : Option String) (call : Except String Json) :
    List (String × Json) :=
  match call with
  | .ok v => [("user", userJson user), ("portfolio_value", v)]
  | .error e =>
    [("error", .str ("Error getting portfolio value: " ++ e)),
     ("portfolio_value", .obj [])]

def tool_get_positions (user : Option String) (_limit : Option Int)
    (call : Except String Json) : List (String × Json) :=
  match call with
  | .ok ps => [("user", userJson user), ("positions", ps), ("count", countOf ps)]
  | .error e =>
    [("error", .str ("Error getting positions: " ++ e)), ("positions", .arr [])]

def tool_get_closed_positions (user : Option String) (_limit : Option Int)
    (call : Except String Json) : List (String × Json) :=
  match call with
  | .ok ps =>
    [("user", userJson user), ("closed_positions", ps), ("count", countOf ps)]
  | .error e =>
    [("error", .str ("Error getting closed positions: " ++ e)),
     ("closed_positions", .arr [])]

def tool_get_trades (user : Option String) (_limit : Option Int)
    (call : Except String Json) : List (String × Json) :=
  match call with
  | .ok ts => [("user", userJson user), ("trades", ts), ("count", countOf ts)]
  | .error e =>
    [("error", .str ("Error getting trades: " ++ e)), ("trades", .arr [])]

def tool_redeem_position (condition_id : String) (index_sets : List Int)
    (call : Except String String) : List (String × Json) :=
  match call with
  | .ok tx =>
    [("condition_id", .str condition_id),
     ("index_sets", .arr (index_sets.map (fun i => .num i))),
     ("tx_hash", .str tx)]
  | .error e => [("error", .str ("Error redeeming position: " ++ e))]

/-! ### The get-market-by-slug wiring (`server.py` line 32)

`get_market` calls `gamma.get_markets(querystring_params=..., parse_pydantic=True)`
while `GammaClient.get_markets` accepts only `querystring_params`; Python
raises `TypeError` for the unexpected keyword before the request is ever
made.  The call is modelled by checking the passed keyword names against
the accepted ones; `respond` stands for whatever the metadata service
would have answered. -/

def gammaGetMarketsAcceptedKwargs : List String := ["querystring_params"]

def gammaGetMarketsCall (kwargs : List String)
    (respond : Except String (List Json)) : Except String (List Json) :=
  if kwargs.all (fun k => gammaGetMarketsAcceptedKwargs.contains k) then respond
  else .error "get_markets() got an unexpected keyword argument parse_pydantic"

/-- The `get_market` tool as wired in `server.py`: the gamma client call
with the keywords actually passed at line 32, fed into the handler. -/
def get_market_server (slug : String) (respond : Except String (List Json)) :
    List (String × Json) :=
  tool_get_market slug
    (gammaGetMarketsCall ["querystring_params", "parse_pydantic"] respond)

/-! ### Account reads (`client/data.py`)

`params = dict(querystring_params or {}); params["user"] = user if user
is not None else self.address` — modelled on association lists with a
dict-style key update. -/

/-- A prepared HTTP request: endpoint path and query parameters. -/
structure DataRequest where
  endpoint : String
  params : List (String × String)

/-- Dict update `ps[k] = v`. -/
def setParam (ps : List (String × String)) (k v : String) :
    List (String × String) :=
  ps.filter (fun kv => kv.1 ≠ k) ++ [(k, v)]

/-- Dict lookup. -/
def pLookup (ps : List (String × String)) (k : String) : Option String :=
  match ps with
  | [] => none
  | (k2, v) :: rest => if k2 = k then some v else pLookup rest k

def get_positions_req (address : String) (user : Option String)
    (qp : List (String × String)) : DataRequest :=
  ⟨"/positions", setParam qp "user" (user.getD address)⟩

def get_closed_positions_req (address : String) (user : Option String)
    (qp : List (String × String)) : DataRequest :=
  ⟨"/closed-positions", setParam qp "user" (user.getD address)⟩

def get_trades_req (address : String) (user : Option String)
    (qp : List (String × String)) : DataRequest :=
  ⟨"/trades", setParam qp "user" (user.getD address)⟩

def get_portfolio_value_req (address : String) (user : Option String) :
    DataRequest :=
  ⟨"/value", [("user", user.getD address)]⟩

/-! ## Helper lemmas -/

theorem obind_eq_some {α β : Type} {x : Option α} {f : α → Option β} {r : β} :
    x >>= f = some r ↔ ∃ a, x = some a ∧ f a = some r := by
  cases x with
  | none => simp
  | some a => simp

/-- A market record with the given gating booleans, question and end date,
and every other field defaulted; used as a concrete test vector. -/
def mkSimple (active closed archived accepting : Bool)
    (question end_date_iso : Option String) : SimpleMarket :=
  SimpleMarket.mk "c" active closed archived accepting
    none none none question none none end_date_iso none none none none none
    none none none none none none none none none none none ⟨none, 0, 0⟩ []

/-! ## C5: derived views -/

/-- C5: for every normalized market record the derived views are recomputed
from `tokens`: the three views have the same length as `tokens`, `outcomes`
and `clob_token_ids` are the pointwise labels and identifiers, and
`outcome_prices` is the pointwise price with an absent price mapped to 0. -/
theorem derived_views_spec (m : SimpleMarket) :
    (outcomes m).length = m.tokens.length ∧
    (outcome_prices m).length = m.tokens.length ∧
    (clob_token_ids m).length = m.tokens.length ∧
    (∀ i : Nat, (outcomes m)[i]? = (m.tokens[i]?).map (fun t => t.outcome)) ∧
    (∀ i : Nat, (clob_token_ids m)[i]? = (m.tokens[i]?).map (fun t => t.token_id)) ∧
    (∀ i : Nat, (outcome_prices m)[i]? = (m.tokens[i]?).map (fun t => t.price.getD 0)) := by
  refine ⟨by simp [outcomes], by simp [outcome_prices], by simp [clob_token_ids],
    ?_, ?_, ?_⟩ <;> intro i
  · simp [outcomes]
  · simp [clob_token_ids]
  · simp only [outcome_prices, List.getElem?_map]
    cases h : m.tokens[i]? with
    | none => rfl
    | some t => cases ht : t.price <;> simp [ht, Option.getD]

/-! ## C6: fulfillment-policy fallback -/

/-- C6: a recognized fulfillment-policy string (a member name of the order
type enum) is used as given by the market-order operation, and every other
policy string falls back to fill-or-kill. -/
theorem place_market_order_policy (token_id : String) (amount : ℚ) (s : String) :
    (∀ ot : OrderType, s = orderTypeName ot →
      (place_market_order token_id amount s).orderType = ot)
    ∧ ((∀ ot : OrderType, s ≠ orderTypeName ot) →
      (place_market_order token_id amount s).orderType = OrderType.FOK) := by
  constructor
  · intro ot h
    cases ot <;> subst h <;> rfl
  · intro h
    have h1 : s ≠ "FOK" := h OrderType.FOK
    have h2 : s ≠ "IOC" := h OrderType.IOC
    have h3 : s ≠ "GTC" := h OrderType.GTC
    simp [place_market_order, execute_market_order, getattrOrderType, h1, h2, h3]

/-- C6 witness: at concrete inputs, the recognized policy "GTC" is kept and
the unrecognized policy "DAY" falls back to fill-or-kill. -/
theorem place_market_order_policy_witness :
    (place_market_order "tok" 5 "GTC").orderType = OrderType.GTC
    ∧ (place_market_order "tok" 5 "DAY").orderType = OrderType.FOK := by
  constructor
  · exact (place_market_order_policy "tok" 5 "GTC").1 OrderType.GTC rfl
  · exact (place_market_order_policy "tok" 5 "DAY").2 (by intro ot; cases ot <;> decide)

/-! ## C8: uniform error envelopes of the tool handlers -/

/-- C8: every tool handler is a total function of its inputs and of the
outcome of the underlying client call; when the call raises, the handler
returns a dict whose `error` key carries the prefixed message, and a
successful call never produces an `error` key. -/
theorem tool_error_envelope :
    (∀ (slug e : String), getKey (tool_get_market slug (.error e)) "error"
      = some (.str ("Error getting market: " ++ e)))
    ∧ (∀ (slug : String) ms, getKey (tool_get_market slug (.ok ms)) "error" = none)
    ∧ (∀ (limit : Option Int) (e : String), getKey (tool_get_markets limit (.error e)) "error"
      = some (.str ("Error getting markets: " ++ e)))
    ∧ (∀ (limit : Option Int) ms, getKey (tool_get_markets limit (.ok ms)) "error" = none)
    ∧ (∀ (tid e : String), getKey (tool_get_order_book tid (.error e)) "error"
      = some (.str ("Error getting order book: " ++ e)))
    ∧ (∀ (tid : String) ob, getKey (tool_get_order_book tid (.ok ob)) "error" = none)
    ∧ (∀ (tid e : String), getKey (tool_get_mid_price tid (.error e)) "error"
      = some (.str ("Error getting mid price: " ++ e)))
    ∧ (∀ (tid : String) mp, getKey (tool_get_mid_price tid (.ok mp)) "error" = none)
    ∧ (∀ (tid side e : String), getKey (tool_get_price tid side (.error e)) "error"
      = some (.str ("Error getting price: " ++ e)))
    ∧ (∀ (tid side : String) p, getKey (tool_get_price tid side (.ok p)) "error" = none)
    ∧ (∀ (tid : String) (price size : ℚ) (side e : String),
      getKey (tool_place_limit_order tid price size side (.error e)) "error"
      = some (.str ("Error placing limit order: " ++ e)))
    ∧ (∀ (tid : String) (price size : ℚ) (side oid : String),
      getKey (tool_place_limit_order tid price size side (.ok oid)) "error" = none)
    ∧ (∀ (tid : String) (amount : ℚ) (ot e : String),
      getKey (tool_place_market_order tid amount ot (.error e)) "error"
      = some (.str ("Error placing market order: " ++ e)))
    ∧ (∀ (tid : String) (amount : ℚ) (ot : String) r,
      getKey (tool_place_market_order tid amount ot (.ok r)) "error" = none)
    ∧ (∀ (oid e : String), getKey (tool_cancel_order oid (.error e)) "error"
      = some (.str ("Error cancelling order: " ++ e)))
    ∧ (∀ (oid : String) r, getKey (tool_cancel_order oid (.ok r)) "error" = none)
    ∧ (∀ (addr e : String), getKey (tool_get_usdc_balance addr (.error e)) "error"
      = some (.str ("Error getting USDC balance: " ++ e)))
    ∧ (∀ (addr : String) (b : ℚ), getKey (tool_get_usdc_balance addr (.ok b)) "error" = none)
    ∧ (∀ (user : Option String) (e : String),
      getKey (tool_get_portfolio_value user (.error e)) "error"
      = some (.str ("Error getting portfolio value: " ++ e)))
    ∧ (∀ (user : Option String) v, getKey (tool_get_portfolio_value user (.ok v)) "error" = none)
    ∧ (∀ (user : Option String) (limit : Option Int) (e : String),
      getKey (tool_get_positions user limit (.error e)) "error"
      = some (.str ("Error getting positions: " ++ e)))
    ∧ (∀ (user : Option String) (limit : Option Int) ps,
      getKey (tool_get_positions user limit (.ok ps)) "error" = none)
    ∧ (∀ (user : Option String) (limit : Option Int) (e : String),
      getKey (tool_get_closed_positions user limit (.error e)) "error"
      = some (.str ("Error getting closed positions: " ++ e)))
    ∧ (∀ (user : Option String) (limit : Option Int) ps,
      getKey (tool_get_closed_positions user limit (.ok ps)) "error" = none)
    ∧ (∀ (user : Option String) (limit : Option Int) (e : String),
      getKey (tool_get_trades user limit (.error e)) "error"
      = some (.str ("Error getting trades: " ++ e)))
    ∧ (∀ (user : Option String) (limit : Option Int) ts,
      getKey (tool_get_trades user limit (.ok ts)) "error" = none)
    ∧ (∀ (cid : String) (ix : List Int) (e : String),
      getKey (tool_redeem_position cid ix (.error e)) "error"
      = some (.str ("Error redeeming position: " ++ e)))
    ∧ (∀ (cid : String) (ix : List Int) (tx : String),
      getKey (tool_redeem_position cid ix (.ok tx)) "error" = none) := by
  and_intros <;> intros <;> rfl

/-! ## C9: the get-market-by-slug tool never returns its collection -/

/-- C9 (code bug): as wired in `server.py`, `get_market` passes the
unsupported keyword `parse_pydantic` to the gamma client for every slug,
so the raised `TypeError` is caught and an error dict is returned; the
`markets`/`count` collection shape of the specification is never
produced, whatever the metadata service would have answered. -/
theorem get_market_always_errors (slug : String)
    (respond : Except String (List Json)) :
    getKey (get_market_server slug respond) "error"
      = some (.str ("Error getting market: " ++
        "get_markets() got an unexpected keyword argument parse_pydantic"))
    ∧ getKey (get_market_server slug respond) "markets" = none
    ∧ getKey (get_market_server slug respond) "count" = none :=
  ⟨rfl, rfl, rfl⟩

/-! ## C10: account reads and the wallet-address fallback -/

theorem pLookup_append_skip (l : List (String × String)) (k v : String)
    (h : ∀ kv ∈ l, kv.1 ≠ k) : pLookup (l ++ [(k, v)]) k = some v := by
  induction l with
  | nil => simp [pLookup]
  | cons kv rest ih =>
    obtain ⟨k2, v2⟩ := kv
    have hk : k2 ≠ k := h (k2, v2) (by simp)
    simp only [List.cons_append, pLookup, if_neg hk]
    exact ih (fun x hx => h x (by simp [hx]))

theorem pLookup_setParam_same (ps : List (String × String)) (k v : String) :
    pLookup (setParam ps k v) k = some v := by
  refine pLookup_append_skip _ _ _ (fun kv hkv => ?_)
  have := List.of_mem_filter hkv
  simpa using this

theorem pLookup_setParam_ne (ps : List (String × String)) (k v k2 : String)
    (h : k2 ≠ k) : pLookup (setParam ps k v) k2 = pLookup ps k2 := by
  induction ps with
  | nil =>
    simp only [setParam, List.filter_nil, List.nil_append, pLookup]
    rw [if_neg (fun hh => h hh.symm)]
  | cons kv rest ih =>
    obtain ⟨ka, va⟩ := kv
    simp only [setParam, decide_not] at ih ⊢
    by_cases hh : ka = k
    · subst hh
      simp [List.filter_cons, pLookup, Ne.symm h, ih]
    · simp [List.filter_cons, hh, pLookup, ih]

/-- C10: each of the four account reads issues its query with the server's
own configured wallet address as the `user` parameter when the caller
omits the address, with the exact supplied address otherwise, and passes
every other query parameter through unchanged. -/
theorem data_reads_user_fallback (address : String) (user : Option String)
    (qp : List (String × String)) :
    (user = none →
      pLookup (get_positions_req address user qp).params "user" = some address ∧
      pLookup (get_closed_positions_req address user qp).params "user" = some address ∧
      pLookup (get_trades_req address user qp).params "user" = some address ∧
      pLookup (get_portfolio_value_req address user).params "user" = some address)
    ∧ (∀ u, user = some u →
      pLookup (get_positions_req address user qp).params "user" = some u ∧
      pLookup (get_closed_positions_req address user qp).params "user" = some u ∧
      pLookup (get_trades_req address user qp).params "user" = some u ∧
      pLookup (get_portfolio_value_req address user).params "user" = some u)
    ∧ (∀ k2, k2 ≠ "user" →
      pLookup (get_positions_req address user qp).params k2 = pLookup qp k2 ∧
      pLookup (get_closed_positions_req address user qp).params k2 = pLookup qp k2 ∧
      pLookup (get_trades_req address user qp).params k2 = pLookup qp k2) := by
  refine ⟨fun hu => ?_, fun u hu => ?_, fun k2 hk2 => ?_⟩
  · subst hu
    refine ⟨?_, ?_, ?_, ?_⟩ <;>
      simp [get_positions_req, get_closed_positions_req, get_trades_req,
        get_portfolio_value_req, pLookup_setParam_same, pLookup]
  · subst hu
    refine ⟨?_, ?_, ?_, ?_⟩ <;>
      simp [get_positions_req, get_closed_positions_req, get_trades_req,
        get_portfolio_value_req, pLookup_setParam_same, pLookup]
  · exact ⟨pLookup_setParam_ne qp "user" _ k2 hk2,
      pLookup_setParam_ne qp "user" _ k2 hk2,
      pLookup_setParam_ne qp "user" _ k2 hk2⟩

/-- C10 witness: with configured address `0xA`, an omitted user resolves to
`0xA` while other parameters pass through, and a supplied user `0xB` is
used exactly. -/
theorem data_reads_user_fallback_witness :
    pLookup (get_positions_req "0xA" none [("limit", "5")]).params "user" = some "0xA"
    ∧ pLookup (get_positions_req "0xA" none [("limit", "5")]).params "limit" = some "5"
    ∧ pLookup (get_trades_req "0xA" (some "0xB") []).params "user" = some "0xB" := by
  refine ⟨((data_reads_user_fallback "0xA" none [("limit", "5")]).1 rfl).1, ?_, ?_⟩
  · have h := ((data_reads_user_fallback "0xA" none [("limit", "5")]).2.2 "limit"
      (by decide)).1
    rw [h]; rfl
  · exact (((data_reads_user_fallback "0xA" (some "0xB") []).2.1 "0xB" rfl).2.2).1

/-! ## C7: free-text search over market questions -/

/-- C7: for every record list and non-empty query, search returns exactly
the records whose question contains the query case-insensitively — it is
the order-preserving filter by that predicate, a sublist of the input
whose members are characterized by the match, a record without a question
never appears, and a result-count limit truncates from the front. -/
theorem search_markets_spec (records : List SimpleMarket) (query : String)
    (hq : query ≠ "") :
    (search_markets records query none = records.filter (questionMatches query))
    ∧ (∀ m ∈ search_markets records query none, m ∈ records ∧
        ∃ q, m.question = some q ∧
          substrCs (lowerCs query.data) (lowerCs q.data) = true)
    ∧ (∀ m ∈ records, questionMatches query m = true →
        m ∈ search_markets records query none)
    ∧ (∀ m : SimpleMarket, m.question = none →
        m ∉ search_markets records query none)
    ∧ List.Sublist (search_markets records query none) records
    ∧ (∀ n : Nat, search_markets records query (some n)
        = (search_markets records query none).take n) := by
  refine ⟨rfl, fun m hm => ?_, fun m hm hmatch => ?_, fun m hqnone hmem => ?_,
    ?_, fun n => rfl⟩
  · have h := List.mem_filter.mp hm
    refine ⟨h.1, ?_⟩
    have h2 := h.2
    unfold questionMatches at h2
    cases hqq : m.question with
    | none => rw [hqq] at h2; exact absurd h2 (by simp)
    | some q => rw [hqq] at h2; exact ⟨q, rfl, h2⟩
  · exact List.mem_filter.mpr ⟨hm, hmatch⟩
  · have h := (List.mem_filter.mp hmem).2
    unfold questionMatches at h
    rw [hqnone] at h
    exact absurd h (by simp)
  · exact List.filter_sublist records

/-- C7 witness: a record asking about rain is found by the query `RAIN`
(case-insensitive), and a record with no question is never returned. -/
theorem search_markets_spec_witness :
    mkSimple true false false true (some "Will it rain tomorrow?") none
      ∈ search_markets [mkSimple true false false true (some "Will it rain tomorrow?") none] "RAIN" none
    ∧ mkSimple true false false true none none
      ∉ search_markets [mkSimple true false false true none none] "rain" none := by
  constructor
  · exact (search_markets_spec _ "RAIN" (by decide)).2.2.1 _ (by simp) (by decide)
  · exact (search_markets_spec _ "rain" (by decide)).2.2.2.1 _ rfl

/-! ## C4: pagination of `get_all_markets` -/

/-- C4: when the upstream answers the successive calls with `pages`, and
page `k` is the first one whose cursor is terminal (absent, empty, or the
`"LTE="` sentinel), the listing returns exactly the valid rows of pages
`0..k` — each surviving row exactly once, in page order with within-page
order preserved, invalid rows silently dropped. -/
theorem get_all_markets_spec (pages : List ClobPage) (k : Nat) (pk : ClobPage)
    (hpk : pages[k]? = some pk)
    (hterm : isTerminalCursor pk.next_cursor = true)
    (hbefore : ∀ p ∈ pages.take k, isTerminalCursor p.next_cursor = false) :
    get_all_markets pages = ((pages.take (k + 1)).map pageRows).flatten := by
  induction pages generalizing k with
  | nil => simp at hpk
  | cons p rest ih =>
    cases k with
    | zero =>
      simp only [List.getElem?_cons_zero, Option.some.injEq] at hpk
      subst hpk
      simp [get_all_markets, hterm]
    | succ k2 =>
      have hp : isTerminalCursor p.next_cursor = false :=
        hbefore p (by simp [List.take_succ_cons])
      have hrec := ih k2 (by simpa using hpk)
        (fun q hq => hbefore q (by simp [List.take_succ_cons, hq]))
      simp [get_all_markets, hp, hrec, List.take_succ_cons]

/-- A market payload that passes validation. -/
def jGood (cid : String) : Json :=
  .obj [("condition_id", .str cid), ("active", .bool true),
    ("closed", .bool false), ("archived", .bool false),
    ("accepting_orders", .bool true), ("rewards", .obj []),
    ("tokens", .arr [])]

/-- A market payload that fails validation (required fields missing). -/
def jBad : Json := .obj [("condition_id", .str "x")]

/-- A mocked upstream: two non-terminal pages (the second ends with the
`"LTE="` sentinel) followed by a page the loop must never request. -/
def pagesMock : List ClobPage :=
  [⟨[jGood "a", jBad], some "cursor1"⟩,
   ⟨[jGood "b"], some "LTE="⟩,
   ⟨[jGood "never"], none⟩]

/-- C4 witness: on the mocked upstream the listing is exactly the valid
rows of the first two pages, in order; the bad row and the page after the
sentinel are dropped. -/
theorem get_all_markets_spec_witness :
    get_all_markets pagesMock = ((pagesMock.take 2).map pageRows).flatten := by
  exact get_all_markets_spec pagesMock 1 ⟨[jGood "b"], some "LTE="⟩ rfl
    (by decide) (by decide)

/-! ## C2: mid price from the order book -/

theorem mapOption_eq_none_iff {α β : Type} (f : α → Option β) (l : List α) :
    mapOption f l = none ↔ ∃ x ∈ l, f x = none := by
  induction l with
  | nil => simp [mapOption]
  | cons x xs ih =>
    cases hf : f x <;> cases hxs : mapOption f xs <;>
      simp [mapOption, hf, hxs, ← ih]

theorem mapOption_some_length {α β : Type} (f : α → Option β) (l : List α)
    (ys : List β) (h : mapOption f l = some ys) : ys.length = l.length := by
  induction l generalizing ys with
  | nil => simp [mapOption] at h; simp [← h]
  | cons x xs ih =>
    unfold mapOption at h
    cases hf : f x with
    | none => rw [hf] at h; simp at h
    | some y =>
      rw [hf] at h
      cases hxs : mapOption f xs with
      | none => rw [hxs] at h; simp at h
      | some zs =>
        rw [hxs] at h
        have hys : ys = y :: zs := by simpa using h.symm
        subst hys
        simp [ih zs hxs]

theorem foldl_max_mem (ps : List ℚ) (p : ℚ) :
    ps.foldl max p = p ∨ ps.foldl max p ∈ ps := by
  induction ps generalizing p with
  | nil => left; rfl
  | cons q qs ih =>
    rcases ih (max p q) with h | h
    · rcases max_choice p q with hm | hm
      · left; rw [List.foldl_cons, h, hm]
      · right; rw [List.foldl_cons, h, hm]; exact List.mem_cons_self q qs
    · right; rw [List.foldl_cons]; exact List.mem_cons_of_mem q h

theorem foldl_max_le (ps : List ℚ) (p : ℚ) :
    p ≤ ps.foldl max p ∧ ∀ x ∈ ps, x ≤ ps.foldl max p := by
  induction ps generalizing p with
  | nil => exact ⟨le_refl p, by simp⟩
  | cons q qs ih =>
    refine ⟨le_trans (le_max_left p q) (by rw [List.foldl_cons]; exact (ih (max p q)).1), ?_⟩
    intro x hx
    rw [List.foldl_cons]
    rcases List.mem_cons.mp hx with rfl | hx2
    · exact le_trans (le_max_right p x) (ih (max p x)).1
    · exact (ih (max p q)).2 x hx2

theorem foldl_min_mem (ps : List ℚ) (p : ℚ) :
    ps.foldl min p = p ∨ ps.foldl min p ∈ ps := by
  induction ps generalizing p with
  | nil => left; rfl
  | cons q qs ih =>
    rcases ih (min p q) with h | h
    · rcases min_choice p q with hm | hm
      · left; rw [List.foldl_cons, h, hm]
      · right; rw [List.foldl_cons, h, hm]; exact List.mem_cons_self q qs
    · right; rw [List.foldl_cons]; exact List.mem_cons_of_mem q h

theorem foldl_min_le (ps : List ℚ) (p : ℚ) :
    ps.foldl min p ≤ p ∧ ∀ x ∈ ps, ps.foldl min p ≤ x := by
  induction ps generalizing p with
  | nil => exact ⟨le_refl p, by simp⟩
  | cons q qs ih =>
    refine ⟨le_trans (by rw [List.foldl_cons]; exact (ih (min p q)).1) (min_le_left p q), ?_⟩
    intro x hx
    rw [List.foldl_cons]
    rcases List.mem_cons.mp hx with rfl | hx2
    · exact le_trans (ih (min p x)).1 (min_le_right p x)
    · exact (ih (min p q)).2 x hx2

theorem get_mid_none_iff (ob : OrderBookSummary) :
    get_mid_from_book ob = none ↔
      ob.bids = [] ∨ ob.asks = [] ∨
      (∃ lvl ∈ ob.bids, pyFloat lvl.price = none) ∨
      (∃ lvl ∈ ob.asks, pyFloat lvl.price = none) := by
  by_cases hb : ob.bids = []
  · have hz : get_mid_from_book ob = none := by
      unfold get_mid_from_book
      rw [show sideBest max ob.bids = some none from by simp [sideBest, hb]]
      cases hsa : sideBest min ob.asks with
      | none => rfl
      | some ba => cases ba <;> rfl
    simp [hz, hb]
  · cases hmb : mapOption (fun lvl => pyFloat lvl.price) ob.bids with
    | none =>
      have hsb : sideBest max ob.bids = none := by simp [sideBest, hb, hmb]
      have hz : get_mid_from_book ob = none := by
        unfold get_mid_from_book; rw [hsb]
      simp [hz, (mapOption_eq_none_iff _ _).mp hmb]
    | some bs =>
      obtain ⟨p, ps, rfl⟩ : ∃ p ps, bs = p :: ps := by
        cases bs with
        | nil =>
          have := mapOption_some_length _ _ _ hmb
          simp at this
          exact (hb (List.length_eq_zero.mp this.symm)).elim
        | cons p ps => exact ⟨p, ps, rfl⟩
      have hsb : sideBest max ob.bids = some (some (ps.foldl max p)) := by
        simp [sideBest, hb, hmb]
      have hnofb : ¬ ∃ lvl ∈ ob.bids, pyFloat lvl.price = none := by
        intro hx
        have := (mapOption_eq_none_iff _ _).mpr hx
        rw [hmb] at this
        exact Option.noConfusion this
      by_cases ha : ob.asks = []
      · have hsa : sideBest min ob.asks = some none := by simp [sideBest, ha]
        have hz : get_mid_from_book ob = none := by
          unfold get_mid_from_book; rw [hsb, hsa]
        simp [hz, ha]
      · cases hma : mapOption (fun lvl => pyFloat lvl.price) ob.asks with
        | none =>
          have hsa : sideBest min ob.asks = none := by simp [sideBest, ha, hma]
          have hz : get_mid_from_book ob = none := by
            unfold get_mid_from_book; rw [hsb, hsa]
          simp [hz, (mapOption_eq_none_iff _ _).mp hma]
        | some as2 =>
          obtain ⟨a, as3, rfl⟩ : ∃ a as3, as2 = a :: as3 := by
            cases as2 with
            | nil =>
              have := mapOption_some_length _ _ _ hma
              simp at this
              exact (ha (List.length_eq_zero.mp this.symm)).elim
            | cons a as3 => exact ⟨a, as3, rfl⟩
          have hsa : sideBest min ob.asks = some (some (as3.foldl min a)) := by
            simp [sideBest, ha, hma]
          have hnofa : ¬ ∃ lvl ∈ ob.asks, pyFloat lvl.price = none := by
            intro hx
            have := (mapOption_eq_none_iff _ _).mpr hx
            rw [hma] at this
            exact Option.noConfusion this
          have hz : get_mid_from_book ob =
              some (round4 ((ps.foldl max p + as3.foldl min a) / 2)) := by
            unfold get_mid_from_book; rw [hsb, hsa]
          simp [hz, hb, ha, hnofb, hnofa]

theorem get_mid_value (ob : OrderBookSummary) (bs as2 : List ℚ)
    (hmb : mapOption (fun lvl => pyFloat lvl.price) ob.bids = some bs)
    (hma : mapOption (fun lvl => pyFloat lvl.price) ob.asks = some as2)
    (hb : ob.bids ≠ []) (ha : ob.asks ≠ []) :
    ∃ bestBid bestAsk, bestBid ∈ bs ∧ (∀ x ∈ bs, x ≤ bestBid) ∧
      bestAsk ∈ as2 ∧ (∀ x ∈ as2, bestAsk ≤ x) ∧
      get_mid_from_book ob = some (round4 ((bestBid + bestAsk) / 2)) := by
  obtain ⟨p, ps, rfl⟩ : ∃ p ps, bs = p :: ps := by
    cases bs with
    | nil =>
      have := mapOption_some_length _ _ _ hmb
      simp at this
      exact (hb (List.length_eq_zero.mp this.symm)).elim
    | cons p ps => exact ⟨p, ps, rfl⟩
  obtain ⟨a, as3, rfl⟩ : ∃ a as3, as2 = a :: as3 := by
    cases as2 with
    | nil =>
      have := mapOption_some_length _ _ _ hma
      simp at this
      exact (ha (List.length_eq_zero.mp this.symm)).elim
    | cons a as3 => exact ⟨a, as3, rfl⟩
  refine ⟨ps.foldl max p, as3.foldl min a, ?_, ?_, ?_, ?_, ?_⟩
  · rcases foldl_max_mem ps p with h | h
    · rw [h]; exact List.mem_cons_self p ps
    · exact List.mem_cons_of_mem p h
  · intro x hx
    rcases List.mem_cons.mp hx with rfl | hx2
    · exact (foldl_max_le ps x).1
    · exact (foldl_max_le ps p).2 x hx2
  · rcases foldl_min_mem as3 a with h | h
    · rw [h]; exact List.mem_cons_self a as3
    · exact List.mem_cons_of_mem a h
  · intro x hx
    rcases List.mem_cons.mp hx with rfl | hx2
    · exact (foldl_min_le as3 x).1
    · exact (foldl_min_le as3 a).2 x hx2
  · unfold get_mid_from_book
    rw [show sideBest max ob.bids = some (some (ps.foldl max p)) from by
      simp [sideBest, hb, hmb]]
    rw [show sideBest min ob.asks = some (some (as3.foldl min a)) from by
      simp [sideBest, ha, hma]]

/-- C2: the mid price is unavailable (`None`) exactly when the bid side is
empty, the ask side is empty, or some price string fails to parse;
otherwise it is the average of the maximum bid price and the minimum ask
price — found by scanning the unsorted sides — rounded to 4 decimal
places; and on the specification's example book it equals 0.5000. -/
theorem get_mid_from_book_spec (ob : OrderBookSummary) :
    (get_mid_from_book ob = none ↔
      ob.bids = [] ∨ ob.asks = [] ∨
      (∃ lvl ∈ ob.bids, pyFloat lvl.price = none) ∨
      (∃ lvl ∈ ob.asks, pyFloat lvl.price = none))
    ∧ (∀ bs as2 : List ℚ,
        mapOption (fun lvl => pyFloat lvl.price) ob.bids = some bs →
        mapOption (fun lvl => pyFloat lvl.price) ob.asks = some as2 →
        ob.bids ≠ [] → ob.asks ≠ [] →
        ∃ bestBid bestAsk, bestBid ∈ bs ∧ (∀ x ∈ bs, x ≤ bestBid) ∧
          bestAsk ∈ as2 ∧ (∀ x ∈ as2, bestAsk ≤ x) ∧
          get_mid_from_book ob = some (round4 ((bestBid + bestAsk) / 2)))
    ∧ get_mid_from_book ⟨[⟨"0.45", "10"⟩, ⟨"0.40", "10"⟩],
        [⟨"0.55", "10"⟩, ⟨"0.60", "10"⟩]⟩ = some (1 / 2) :=
  ⟨get_mid_none_iff ob,
   fun bs as2 hmb hma hb ha => get_mid_value ob bs as2 hmb hma hb ha,
   by
    have hmb : mapOption (fun lvl => pyFloat lvl.price)
        ([⟨"0.45", "10"⟩, ⟨"0.40", "10"⟩] : List OrderLevel)
        = some [9 / 20, 2 / 5] := by
      simp [mapOption, pyFloat, parseExpTail, digitsToNat, digitVal]
      norm_num
    have hma : mapOption (fun lvl => pyFloat lvl.price)
        ([⟨"0.55", "10"⟩, ⟨"0.60", "10"⟩] : List OrderLevel)
        = some [11 / 20, 3 / 5] := by
      simp [mapOption, pyFloat, parseExpTail, digitsToNat, digitVal]
      norm_num
    have hround : round4 ((1 : ℚ) / 2) = 1 / 2 := by
      unfold round4 roundHalfEven
      norm_num
    unfold get_mid_from_book sideBest
    rw [hmb, hma]
    norm_num [max_def, min_def]
    rw [if_neg (by decide :
      ¬ ([⟨"0.45", "10"⟩, ⟨"0.40", "10"⟩] : List OrderLevel) = [])]
    rw [if_neg (by decide :
      ¬ ([⟨"0.55", "10"⟩, ⟨"0.60", "10"⟩] : List OrderLevel) = [])]
    norm_num [hround]⟩

/-- C2 witness: on the example book the best bid 0.45 and best ask 0.55 are
found by scanning and the mid is their rounded average. -/
theorem get_mid_from_book_spec_witness :
    ∃ bestBid bestAsk,
      bestBid ∈ [(9 : ℚ) / 20, 2 / 5] ∧ (∀ x ∈ [(9 : ℚ) / 20, 2 / 5], x ≤ bestBid) ∧
      bestAsk ∈ [(11 : ℚ) / 20, 3 / 5] ∧ (∀ x ∈ [(11 : ℚ) / 20, 3 / 5], bestAsk ≤ x) ∧
      get_mid_from_book ⟨[⟨"0.45", "10"⟩, ⟨"0.40", "10"⟩],
        [⟨"0.55", "10"⟩, ⟨"0.60", "10"⟩]⟩ = some (round4 ((bestBid + bestAsk) / 2)) :=
  (get_mid_from_book_spec ⟨[⟨"0.45", "10"⟩, ⟨"0.40", "10"⟩],
      [⟨"0.55", "10"⟩, ⟨"0.60", "10"⟩]⟩).2.1
    [(9 : ℚ) / 20, 2 / 5] [(11 : ℚ) / 20, 3 / 5]
    (by simp [mapOption, pyFloat, parseExpTail, digitsToNat, digitVal]; norm_num)
    (by simp [mapOption, pyFloat, parseExpTail, digitsToNat, digitVal]; norm_num)
    (by decide) (by decide)

/-! ## C3: what normalization accepts -/

theorem isSome_omap {α β : Type} (f : α → β) (x : Option α) :
    (x.map f).isSome = x.isSome := by
  cases x <;> rfl

theorem isSome_laxBool (j : Json) : (laxBool j).isSome = laxBoolOk j := by
  cases j with
  | num q =>
    by_cases h0 : q = 0
    · simp [laxBool, laxBoolOk, h0]
    · by_cases h1 : q = 1 <;> simp [laxBool, laxBoolOk, h0, h1]
  | null => rfl
  | bool b => rfl
  | str s => rfl
  | arr xs => rfl
  | obj fs => rfl

theorem isSome_laxFloat (j : Json) : (laxFloat j).isSome = laxFloatOk j := by
  cases j <;> rfl

theorem isSome_laxInt (j : Json) : (laxInt j).isSome = laxIntOk j := by
  cases j with
  | num q => by_cases h : q.den = 1 <;> simp [laxInt, laxIntOk, h]
  | str s =>
    cases hp : pyFloat s with
    | none => simp [laxInt, laxIntOk, hp]
    | some q => by_cases h : q.den = 1 <;> simp [laxInt, laxIntOk, hp, h]
  | null => rfl
  | bool b => rfl
  | arr xs => rfl
  | obj fs => rfl

theorem isSome_vReqStr (o : List (String × Json)) (k : String) :
    (vReqStr o k).isSome = jHasStr o k := by
  unfold vReqStr jHasStr
  cases getKey o k with
  | none => rfl
  | some j => cases j <;> rfl

theorem isSome_vReqBool (o : List (String × Json)) (k : String) :
    (vReqBool o k).isSome = jHasBool o k := by
  unfold vReqBool jHasBool
  cases getKey o k with
  | none => rfl
  | some j => exact isSome_laxBool j

theorem isSome_vReqFloat (o : List (String × Json)) (k : String) :
    (vReqFloat o k).isSome = jHasFloat o k := by
  unfold vReqFloat jHasFloat
  cases getKey o k with
  | none => rfl
  | some j => exact isSome_laxFloat j

theorem isSome_vOptStr (o : List (String × Json)) (k : String) :
    (vOptStr o k).isSome = jOptStrOk o k := by
  unfold vOptStr jOptStrOk
  cases getKey o k with
  | none => rfl
  | some j => cases j <;> rfl

theorem isSome_vOptBool (o : List (String × Json)) (k : String) :
    (vOptBool o k).isSome = jOptBoolOk o k := by
  unfold vOptBool jOptBoolOk
  cases getKey o k with
  | none => rfl
  | some j =>
    cases j <;> first
      | rfl
      | (rw [isSome_omap]; exact isSome_laxBool _)

theorem isSome_vOptFloat (o : List (String × Json)) (k : String) :
    (vOptFloat o k).isSome = jOptFloatOk o k := by
  unfold vOptFloat jOptFloatOk
  cases getKey o k with
  | none => rfl
  | some j =>
    cases j <;> first
      | rfl
      | (rw [isSome_omap]; exact isSome_laxFloat _)

theorem isSome_vOptInt (o : List (String × Json)) (k : String) :
    (vOptInt o k).isSome = jOptIntOk o k := by
  unfold vOptInt jOptIntOk
  cases getKey o k with
  | none => rfl
  | some j =>
    cases j <;> first
      | rfl
      | (rw [isSome_omap]; exact isSome_laxInt _)

theorem isSome_mapOption {α β : Type} (f : α → Option β) (g : α → Bool)
    (h : ∀ x, (f x).isSome = g x) (l : List α) :
    (mapOption f l).isSome = l.all g := by
  induction l with
  | nil => simp [mapOption]
  | cons x xs ih =>
    cases hf : f x <;> cases hxs : mapOption f xs <;>
      simp [mapOption, hf, hxs, List.all_cons, ← h, ← ih]

theorem isSome_vOptStrList (o : List (String × Json)) (k : String) :
    (vOptStrList o k).isSome = jOptStrListOk o k := by
  unfold vOptStrList jOptStrListOk
  cases getKey o k with
  | none => rfl
  | some j =>
    cases j with
    | arr xs =>
      rw [isSome_omap]
      exact isSome_mapOption _ _ (fun j => by cases j <;> rfl) xs
    | null => rfl
    | bool b => rfl
    | num q => rfl
    | str s => rfl
    | obj fs => rfl

theorem isSome_vOptFloatDef (o : List (String × Json)) (k : String) (d : ℚ) :
    (vOptFloatDef o k d).isSome = jOptFloatOk o k := by
  unfold vOptFloatDef jOptFloatOk
  cases getKey o k with
  | none => rfl
  | some j =>
    cases j <;> first
      | rfl
      | (rw [isSome_omap]; exact isSome_laxFloat _)

theorem isSome_vFloatDef0 (o : List (String × Json)) (k : String) :
    (vFloatDef0 o k).isSome = jFloatDef0Ok o k := by
  unfold vFloatDef0 jFloatDef0Ok
  cases getKey o k with
  | none => rfl
  | some j => exact isSome_laxFloat j

theorem isSome_rr_validate (j : Json) :
    (RewardRate.model_validate j).isSome = rewardRateOk j := by
  cases j with
  | obj ro =>
    unfold RewardRate.model_validate rewardRateOk
    cases h1 : vReqStr ro "asset_address" with
    | none => simp [h1, ← isSome_vReqStr]
    | some a =>
      cases h2 : vReqFloat ro "rewards_daily_rate" with
      | none => simp [h1, h2, ← isSome_vReqStr, ← isSome_vReqFloat]
      | some r => simp [h1, h2, ← isSome_vReqStr, ← isSome_vReqFloat]
  | null => rfl
  | bool b => rfl
  | num q => rfl
  | str s => rfl
  | arr xs => rfl

theorem isSome_vRates (ro : List (String × Json)) :
    (vRates ro).isSome = ratesOk ro := by
  unfold vRates ratesOk
  cases getKey ro "rates" with
  | none => rfl
  | some j =>
    cases j with
    | obj r2 => rw [isSome_omap]; exact isSome_rr_validate _
    | arr xs => rw [isSome_omap]; exact isSome_mapOption _ _ isSome_rr_validate xs
    | null => rfl
    | bool b => rfl
    | num q => rfl
    | str s => rfl

theorem isSome_vRewards (o : List (String × Json)) :
    (vRewards o).isSome = rewardsOk o := by
  unfold vRewards rewardsOk
  cases getKey o "rewards" with
  | none => rfl
  | some j =>
    cases j with
    | obj ro =>
      unfold Rewards.model_validate
      cases h1 : vRates ro with
      | none => simp [h1, ← isSome_vRates]
      | some rates =>
        cases h2 : vFloatDef0 ro "min_size" with
        | none => simp [h1, h2, ← isSome_vRates, ← isSome_vFloatDef0]
        | some ms =>
          cases h3 : vFloatDef0 ro "max_spread" with
          | none => simp [h1, h2, h3, ← isSome_vRates, ← isSome_vFloatDef0]
          | some msp => simp [h1, h2, h3, ← isSome_vRates, ← isSome_vFloatDef0]
    | null => rfl
    | bool b => rfl
    | num q => rfl
    | str s => rfl
    | arr xs => rfl

theorem isSome_tq_validate (j : Json) :
    (TokenQuote.model_validate j).isSome = tokenOk j := by
  cases j with
  | obj tq =>
    unfold TokenQuote.model_validate tokenOk
    cases h1 : vReqStr tq "token_id" with
    | none => simp [h1, ← isSome_vReqStr]
    | some tid =>
      cases h2 : vReqStr tq "outcome" with
      | none => simp [h1, h2, ← isSome_vReqStr]
      | some oc =>
        cases h3 : vOptFloat tq "price" with
        | none => simp [h1, h2, h3, ← isSome_vReqStr, ← isSome_vOptFloat]
        | some pr =>
          cases h4 : vOptBool tq "winner" with
          | none =>
            simp [h1, h2, h3, h4, ← isSome_vReqStr, ← isSome_vOptFloat,
              ← isSome_vOptBool]
          | some w =>
            simp [h1, h2, h3, h4, ← isSome_vReqStr, ← isSome_vOptFloat,
              ← isSome_vOptBool]
  | null => rfl
  | bool b => rfl
  | num q => rfl
  | str s => rfl
  | arr xs => rfl

theorem isSome_vTokens (o : List (String × Json)) :
    (vTokens o).isSome = tokensOk o := by
  unfold vTokens tokensOk
  cases getKey o "tokens" with
  | none => rfl
  | some j =>
    cases j with
    | arr xs => exact isSome_mapOption _ _ isSome_tq_validate xs
    | null => rfl
    | bool b => rfl
    | num q => rfl
    | str s => rfl
    | obj fs => rfl

theorem isSome_vGating (o : List (String × Json)) :
    (vGating o).isSome =
      (jHasStr o "condition_id" && jHasBool o "active" && jHasBool o "closed" &&
       jHasBool o "archived" && jHasBool o "accepting_orders") := by
  unfold vGating
  cases h1 : vReqStr o "condition_id" with
  | none => simp [h1, ← isSome_vReqStr, ← isSome_vReqBool]
  | some a1 =>
    cases h2 : vReqBool o "active" with
    | none => simp [h1, h2, ← isSome_vReqStr, ← isSome_vReqBool]
    | some a2 =>
      cases h3 : vReqBool o "closed" with
      | none => simp [h1, h2, h3, ← isSome_vReqStr, ← isSome_vReqBool]
      | some a3 =>
        cases h4 : vReqBool o "archived" with
        | none => simp [h1, h2, h3, h4, ← isSome_vReqStr, ← isSome_vReqBool]
        | some a4 =>
          cases h5 : vReqBool o "accepting_orders" with
          | none => simp [h1, h2, h3, h4, h5, ← isSome_vReqStr, ← isSome_vReqBool]
          | some a5 => simp [h1, h2, h3, h4, h5, ← isSome_vReqStr, ← isSome_vReqBool]

theorem isSome_vMeta1 (o : List (String × Json)) :
    (vMeta1 o).isSome =
      (jOptBoolOk o "enable_order_book" && jOptStrOk o "accepting_order_timestamp" &&
       jOptStrOk o "question_id" && jOptStrOk o "question" &&
       jOptStrOk o "description" && jOptStrOk o "market_slug") := by
  unfold vMeta1
  cases h1 : vOptBool o "enable_order_book" with
  | none => simp [h1, ← isSome_vOptBool, ← isSome_vOptStr]
  | some a1 =>
    cases h2 : vOptStr o "accepting_order_timestamp" with
    | none => simp [h1, h2, ← isSome_vOptBool, ← isSome_vOptStr]
    | some a2 =>
      cases h3 : vOptStr o "question_id" with
      | none => simp [h1, h2, h3, ← isSome_vOptBool, ← isSome_vOptStr]
      | some a3 =>
        cases h4 : vOptStr o "question" with
        | none => simp [h1, h2, h3, h4, ← isSome_vOptBool, ← isSome_vOptStr]
        | some a4 =>
          cases h5 : vOptStr o "description" with
          | none => simp [h1, h2, h3, h4, h5, ← isSome_vOptBool, ← isSome_vOptStr]
          | some a5 =>
            cases h6 : vOptStr o "market_slug" with
            | none =>
              simp [h1, h2, h3, h4, h5, h6, ← isSome_vOptBool, ← isSome_vOptStr]
            | some a6 =>
              simp [h1, h2, h3, h4, h5, h6, ← isSome_vOptBool, ← isSome_vOptStr]

theorem isSome_vMeta2 (o : List (String × Json)) :
    (vMeta2 o).isSome =
      (jOptStrOk o "end_date_iso" && jOptStrOk o "game_start_time" &&
       jOptIntOk o "seconds_delay" && jOptStrOk o "fpmm" &&
       jOptFloatOk o "maker_base_fee" && jOptFloatOk o "taker_base_fee") := by
  unfold vMeta2
  cases h1 : vOptStr o "end_date_iso" with
  | none => simp [h1, ← isSome_vOptStr, ← isSome_vOptInt, ← isSome_vOptFloat]
  | some a1 =>
    cases h2 : vOptStr o "game_start_time" with
    | none => simp [h1, h2, ← isSome_vOptStr, ← isSome_vOptInt, ← isSome_vOptFloat]
    | some a2 =>
      cases h3 : vOptInt o "seconds_delay" with
      | none =>
        simp [h1, h2, h3, ← isSome_vOptStr, ← isSome_vOptInt, ← isSome_vOptFloat]
      | some a3 =>
        cases h4 : vOptStr o "fpmm" with
        | none =>
          simp [h1, h2, h3, h4, ← isSome_vOptStr, ← isSome_vOptInt, ← isSome_vOptFloat]
        | some a4 =>
          cases h5 : vOptFloat o "maker_base_fee" with
          | none =>
            simp [h1, h2, h3, h4, h5, ← isSome_vOptStr, ← isSome_vOptInt,
              ← isSome_vOptFloat]
          | some a5 =>
            cases h6 : vOptFloat o "taker_base_fee" with
            | none =>
              simp [h1, h2, h3, h4, h5, h6, ← isSome_vOptStr, ← isSome_vOptInt,
                ← isSome_vOptFloat]
            | some a6 =>
              simp [h1, h2, h3, h4, h5, h6, ← isSome_vOptStr, ← isSome_vOptInt,
                ← isSome_vOptFloat]

theorem isSome_vMeta3 (o : List (String × Json)) :
    (vMeta3 o).isSome =
      (jOptBoolOk o "notifications_enabled" && jOptBoolOk o "neg_risk" &&
       jOptStrOk o "neg_risk_market_id" && jOptStrOk o "neg_risk_request_id" &&
       jOptStrOk o "icon" && jOptStrOk o "image") := by
  unfold vMeta3
  cases h1 : vOptBool o "notifications_enabled" with
  | none => simp [h1, ← isSome_vOptBool, ← isSome_vOptStr]
  | some a1 =>
    cases h2 : vOptBool o "neg_risk" with
    | none => simp [h1, h2, ← isSome_vOptBool, ← isSome_vOptStr]
    | some a2 =>
      cases h3 : vOptStr o "neg_risk_market_id" with
      | none => simp [h1, h2, h3, ← isSome_vOptBool, ← isSome_vOptStr]
      | some a3 =>
        cases h4 : vOptStr o "neg_risk_request_id" with
        | none => simp [h1, h2, h3, h4, ← isSome_vOptBool, ← isSome_vOptStr]
        | some a4 =>
          cases h5 : vOptStr o "icon" with
          | none => simp [h1, h2, h3, h4, h5, ← isSome_vOptBool, ← isSome_vOptStr]
          | some a5 =>
            cases h6 : vOptStr o "image" with
            | none =>
              simp [h1, h2, h3, h4, h5, h6, ← isSome_vOptBool, ← isSome_vOptStr]
            | some a6 =>
              simp [h1, h2, h3, h4, h5, h6, ← isSome_vOptBool, ← isSome_vOptStr]

theorem isSome_vMeta4 (o : List (String × Json)) :
    (vMeta4 o).isSome =
      (jOptBoolOk o "is_50_50_outcome" && jOptStrListOk o "tags" &&
       jOptFloatOk o "minimum_order_size" && jOptFloatOk o "minimum_tick_size" &&
       jOptFloatOk o "liquidity") := by
  unfold vMeta4
  cases h1 : vOptBool o "is_50_50_outcome" with
  | none =>
    simp [h1, ← isSome_vOptBool, ← isSome_vOptStrList, ← isSome_vOptFloat,
      ← isSome_vOptFloatDef]
  | some a1 =>
    cases h2 : vOptStrList o "tags" with
    | none =>
      simp [h1, h2, ← isSome_vOptBool, ← isSome_vOptStrList, ← isSome_vOptFloat,
        ← isSome_vOptFloatDef]
    | some a2 =>
      cases h3 : vOptFloat o "minimum_order_size" with
      | none =>
        simp [h1, h2, h3, ← isSome_vOptBool, ← isSome_vOptStrList,
          ← isSome_vOptFloat, ← isSome_vOptFloatDef]
      | some a3 =>
        cases h4 : vOptFloat o "minimum_tick_size" with
        | none =>
          simp [h1, h2, h3, h4, ← isSome_vOptBool, ← isSome_vOptStrList,
            ← isSome_vOptFloat, ← isSome_vOptFloatDef]
        | some a4 =>
          have hbridge : (vOptFloat o "liquidity").isSome
              = (vOptFloatDef o "liquidity" 10000).isSome := by
            rw [isSome_vOptFloat, isSome_vOptFloatDef]
          cases h5 : vOptFloatDef o "liquidity" 10000 with
          | none =>
            simp [h1, h2, h3, h4, h5, hbridge, ← isSome_vOptBool,
              ← isSome_vOptStrList, ← isSome_vOptFloat]
          | some a5 =>
            simp [h1, h2, h3, h4, h5, hbridge, ← isSome_vOptBool,
              ← isSome_vOptStrList, ← isSome_vOptFloat]

theorem requiredOk_eq (o : List (String × Json)) :
    requiredOk o = ((vGating o).isSome && (vRewards o).isSome && (vTokens o).isSome) := by
  rw [isSome_vGating, isSome_vRewards, isSome_vTokens]
  unfold requiredOk
  simp [Bool.and_assoc]

theorem optionalOk_eq (o : List (String × Json)) :
    optionalOk o = ((vMeta1 o).isSome && (vMeta2 o).isSome && (vMeta3 o).isSome &&
      (vMeta4 o).isSome) := by
  rw [isSome_vMeta1, isSome_vMeta2, isSome_vMeta3, isSome_vMeta4]
  unfold optionalOk
  simp [Bool.and_assoc]

theorem isSome_model_validate (o : List (String × Json)) :
    (SimpleMarket.model_validate (Json.obj o)).isSome = (requiredOk o && optionalOk o) := by
  rw [requiredOk_eq, optionalOk_eq]
  unfold SimpleMarket.model_validate
  cases hg : vGating o with
  | none => simp [hg]
  | some g =>
    cases hr : vRewards o with
    | none => simp [hg, hr]
    | some rew =>
      cases ht : vTokens o with
      | none => simp [hg, hr, ht]
      | some tok =>
        cases h1 : vMeta1 o with
        | none => simp [hg, hr, ht, h1]
        | some a =>
          cases h2 : vMeta2 o with
          | none => simp [hg, hr, ht, h1, h2]
          | some b =>
            cases h3 : vMeta3 o with
            | none => simp [hg, hr, ht, h1, h2, h3]
            | some c =>
              cases h4 : vMeta4 o with
              | none => simp [hg, hr, ht, h1, h2, h3, h4]
              | some d => simp [hg, hr, ht, h1, h2, h3, h4]

theorem model_validate_liquidity_default (o : List (String × Json))
    (habs : getKey o "liquidity" = none) (m : SimpleMarket)
    (hm : SimpleMarket.model_validate (Json.obj o) = some m) :
    m.liquidity = some 10000 := by
  unfold SimpleMarket.model_validate at hm
  simp only [obind_eq_some] at hm
  obtain ⟨g, hg, rew, hrew, tok, htok, a, ha2, b, hb2, c, hc2, d, hd2, hm2⟩ := hm
  have hml : m.liquidity = d.2.2.2.2 := by
    have h := congrArg (Option.map SimpleMarket.liquidity) hm2
    simpa using h.symm
  unfold vMeta4 at hd2
  simp only [obind_eq_some] at hd2
  obtain ⟨x1, hx1, x2, hx2, x3, hx3, x4, hx4, x5, hx5, hd3⟩ := hd2
  unfold vOptFloatDef at hx5
  rw [habs] at hx5
  have hx5e : x5 = some 10000 := by simpa using hx5.symm
  have hd4 : d.2.2.2.2 = x5 := by
    have h := congrArg (Option.map (fun t :
      Option Bool × Option (List String) × Option ℚ × Option ℚ × Option ℚ =>
        t.2.2.2.2)) hd3
    simpa using h.symm
  rw [hml, hd4, hx5e]

theorem getKey_cons_ne {k2 k : String} {v : Json} {o : List (String × Json)}
    (h : k2 ≠ k) : getKey ((k, v) :: o) k2 = getKey o k2 := by
  have hstep : getKey ((k, v) :: o) k2
      = if k = k2 then some v else getKey o k2 := rfl
  rw [hstep, if_neg (fun hh => h hh.symm)]

theorem vReqStr_cons_ne {o : List (String × Json)} {k key : String} {v : Json}
    (h : key ≠ k) : vReqStr ((k, v) :: o) key = vReqStr o key := by
  unfold vReqStr; rw [getKey_cons_ne h]

theorem vReqBool_cons_ne {o : List (String × Json)} {k key : String} {v : Json}
    (h : key ≠ k) : vReqBool ((k, v) :: o) key = vReqBool o key := by
  unfold vReqBool; rw [getKey_cons_ne h]

theorem vOptStr_cons_ne {o : List (String × Json)} {k key : String} {v : Json}
    (h : key ≠ k) : vOptStr ((k, v) :: o) key = vOptStr o key := by
  unfold vOptStr; rw [getKey_cons_ne h]

theorem vOptBool_cons_ne {o : List (String × Json)} {k key : String} {v : Json}
    (h : key ≠ k) : vOptBool ((k, v) :: o) key = vOptBool o key := by
  unfold vOptBool; rw [getKey_cons_ne h]

theorem vOptFloat_cons_ne {o : List (String × Json)} {k key : String} {v : Json}
    (h : key ≠ k) : vOptFloat ((k, v) :: o) key = vOptFloat o key := by
  unfold vOptFloat; rw [getKey_cons_ne h]

theorem vOptInt_cons_ne {o : List (String × Json)} {k key : String} {v : Json}
    (h : key ≠ k) : vOptInt ((k, v) :: o) key = vOptInt o key := by
  unfold vOptInt; rw [getKey_cons_ne h]

theorem vOptStrList_cons_ne {o : List (String × Json)} {k key : String} {v : Json}
    (h : key ≠ k) : vOptStrList ((k, v) :: o) key = vOptStrList o key := by
  unfold vOptStrList; rw [getKey_cons_ne h]

theorem vOptFloatDef_cons_ne {o : List (String × Json)} {k key : String} {v : Json}
    {d : ℚ} (h : key ≠ k) :
    vOptFloatDef ((k, v) :: o) key d = vOptFloatDef o key d := by
  unfold vOptFloatDef; rw [getKey_cons_ne h]

theorem vGating_cons_ne {o : List (String × Json)} {k : String} {v : Json}
    (h : ∀ k2 ∈ fieldKeys, k2 ≠ k) : vGating ((k, v) :: o) = vGating o := by
  unfold vGating
  simp only [vReqStr_cons_ne (h "condition_id" (by simp [fieldKeys])),
    vReqBool_cons_ne (h "active" (by simp [fieldKeys])),
    vReqBool_cons_ne (h "closed" (by simp [fieldKeys])),
    vReqBool_cons_ne (h "archived" (by simp [fieldKeys])),
    vReqBool_cons_ne (h "accepting_orders" (by simp [fieldKeys]))]

theorem vMeta1_cons_ne {o : List (String × Json)} {k : String} {v : Json}
    (h : ∀ k2 ∈ fieldKeys, k2 ≠ k) : vMeta1 ((k, v) :: o) = vMeta1 o := by
  unfold vMeta1
  simp only [vOptBool_cons_ne (h "enable_order_book" (by simp [fieldKeys])),
    vOptStr_cons_ne (h "accepting_order_timestamp" (by simp [fieldKeys])),
    vOptStr_cons_ne (h "question_id" (by simp [fieldKeys])),
    vOptStr_cons_ne (h "question" (by simp [fieldKeys])),
    vOptStr_cons_ne (h "description" (by simp [fieldKeys])),
    vOptStr_cons_ne (h "market_slug" (by simp [fieldKeys]))]

theorem vMeta2_cons_ne {o : List (String × Json)} {k : String} {v : Json}
    (h : ∀ k2 ∈ fieldKeys, k2 ≠ k) : vMeta2 ((k, v) :: o) = vMeta2 o := by
  unfold vMeta2
  simp only [vOptStr_cons_ne (h "end_date_iso" (by simp [fieldKeys])),
    vOptStr_cons_ne (h "game_start_time" (by simp [fieldKeys])),
    vOptInt_cons_ne (h "seconds_delay" (by simp [fieldKeys])),
    vOptStr_cons_ne (h "fpmm" (by simp [fieldKeys])),
    vOptFloat_cons_ne (h "maker_base_fee" (by simp [fieldKeys])),
    vOptFloat_cons_ne (h "taker_base_fee" (by simp [fieldKeys]))]

theorem vMeta3_cons_ne {o : List (String × Json)} {k : String} {v : Json}
    (h : ∀ k2 ∈ fieldKeys, k2 ≠ k) : vMeta3 ((k, v) :: o) = vMeta3 o := by
  unfold vMeta3
  simp only [vOptBool_cons_ne (h "notifications_enabled" (by simp [fieldKeys])),
    vOptBool_cons_ne (h "neg_risk" (by simp [fieldKeys])),
    vOptStr_cons_ne (h "neg_risk_market_id" (by simp [fieldKeys])),
    vOptStr_cons_ne (h "neg_risk_request_id" (by simp [fieldKeys])),
    vOptStr_cons_ne (h "icon" (by simp [fieldKeys])),
    vOptStr_cons_ne (h "image" (by simp [fieldKeys]))]

theorem vMeta4_cons_ne {o : List (String × Json)} {k : String} {v : Json}
    (h : ∀ k2 ∈ fieldKeys, k2 ≠ k) : vMeta4 ((k, v) :: o) = vMeta4 o := by
  unfold vMeta4
  simp only [vOptBool_cons_ne (h "is_50_50_outcome" (by simp [fieldKeys])),
    vOptStrList_cons_ne (h "tags" (by simp [fieldKeys])),
    vOptFloat_cons_ne (h "minimum_order_size" (by simp [fieldKeys])),
    vOptFloat_cons_ne (h "minimum_tick_size" (by simp [fieldKeys])),
    vOptFloatDef_cons_ne (h "liquidity" (by simp [fieldKeys]))]

theorem vRewards_cons_ne {o : List (String × Json)} {k : String} {v : Json}
    (h : ∀ k2 ∈ fieldKeys, k2 ≠ k) : vRewards ((k, v) :: o) = vRewards o := by
  unfold vRewards
  rw [getKey_cons_ne (h "rewards" (by simp [fieldKeys]))]

theorem vTokens_cons_ne {o : List (String × Json)} {k : String} {v : Json}
    (h : ∀ k2 ∈ fieldKeys, k2 ≠ k) : vTokens ((k, v) :: o) = vTokens o := by
  unfold vTokens
  rw [getKey_cons_ne (h "tokens" (by simp [fieldKeys]))]

theorem model_validate_ignores_unknown (o : List (String × Json)) (k : String)
    (v : Json) (hk : k ∉ fieldKeys) :
    SimpleMarket.model_validate (Json.obj ((k, v) :: o))
      = SimpleMarket.model_validate (Json.obj o) := by
  have hne : ∀ k2 ∈ fieldKeys, k2 ≠ k := fun k2 hk2 he => hk (he ▸ hk2)
  unfold SimpleMarket.model_validate
  simp only [vGating_cons_ne hne, vRewards_cons_ne hne, vTokens_cons_ne hne,
    vMeta1_cons_ne hne, vMeta2_cons_ne hne, vMeta3_cons_ne hne,
    vMeta4_cons_ne hne]

/-- C3 (amended): normalization of a market payload succeeds exactly when
`condition_id`, the four gating booleans, `rewards` and `tokens` are
present and correctly typed and every present optional field is correctly
typed — where typing is pydantic-v2 lax: bool fields also accept 0/1 and
truthy/falsy strings, float/int fields also accept numeric strings; an
absent `liquidity` defaults to 10000.0; and an unknown key in the payload
is ignored rather than causing failure. -/
theorem model_validate_spec (o : List (String × Json)) :
    ((SimpleMarket.model_validate (Json.obj o)).isSome = true ↔
      (requiredOk o = true ∧ optionalOk o = true))
    ∧ (getKey o "liquidity" = none → ∀ m : SimpleMarket,
        SimpleMarket.model_validate (Json.obj o) = some m →
        m.liquidity = some 10000)
    ∧ (∀ (k : String) (v : Json), k ∉ fieldKeys →
        SimpleMarket.model_validate (Json.obj ((k, v) :: o))
          = SimpleMarket.model_validate (Json.obj o)) := by
  refine ⟨?_, ?_, ?_⟩
  · rw [isSome_model_validate, Bool.and_eq_true]
  · exact fun habs m hm => model_validate_liquidity_default o habs m hm
  · exact fun k v hk => model_validate_ignores_unknown o k v hk

/-- A payload carrying every field the specification calls required —
`condition_id`, the four gating booleans and `tokens` — and nothing
else. -/
def oNoRewards : List (String × Json) :=
  [("condition_id", .str "c"), ("active", .bool true), ("closed", .bool false),
   ("archived", .bool false), ("accepting_orders", .bool true),
   ("tokens", .arr [])]

/-- C3 counterexample: the payload above has all six fields the claim says
suffice, present and correctly typed (and all optional fields vacuously
fine), yet normalization fails, because the model also requires
`rewards`. -/
theorem model_validate_claim_counterexample :
    (SimpleMarket.model_validate (Json.obj oNoRewards)).isSome = false
    ∧ jHasStr oNoRewards "condition_id" = true
    ∧ jHasBool oNoRewards "active" = true
    ∧ jHasBool oNoRewards "closed" = true
    ∧ jHasBool oNoRewards "archived" = true
    ∧ jHasBool oNoRewards "accepting_orders" = true
    ∧ tokensOk oNoRewards = true
    ∧ optionalOk oNoRewards = true := by
  refine ⟨?_, by decide, by decide, by decide, by decide, by decide,
    by decide, by decide⟩
  rw [isSome_model_validate]
  decide

/-- A fully valid payload: the seven required fields, one token without a
price, and no `liquidity` key. -/
def oFull : List (String × Json) :=
  [("condition_id", .str "c"), ("active", .bool true), ("closed", .bool false),
   ("archived", .bool false), ("accepting_orders", .bool true),
   ("rewards", .obj []),
   ("tokens", .arr [.obj [("token_id", .str "t1"), ("outcome", .str "Yes")]])]

/-- A payload exercising pydantic lax coercions: `active` as the number 1,
`accepting_orders` as the string True, and `liquidity` as a numeric
string. -/
def oLax : List (String × Json) :=
  [("condition_id", .str "c"), ("active", .num 1), ("closed", .bool false),
   ("archived", .bool false), ("accepting_orders", .str "True"),
   ("rewards", .obj []), ("tokens", .arr []), ("liquidity", .str "5.5")]

/-- C3 witness: the valid payload normalizes, its absent `liquidity`
defaults to 10000, and consing an unknown key leaves validation
unchanged; a payload with lax-coercible gating fields (`active` = 1,
`accepting_orders` = True) and a numeric-string `liquidity` also
normalizes. -/
theorem model_validate_spec_witness :
    (SimpleMarket.model_validate (Json.obj oFull)).isSome = true
    ∧ (∀ m : SimpleMarket, SimpleMarket.model_validate (Json.obj oFull) = some m →
        m.liquidity = some 10000)
    ∧ SimpleMarket.model_validate (Json.obj (("zzz", Json.null) :: oFull))
        = SimpleMarket.model_validate (Json.obj oFull)
    ∧ (SimpleMarket.model_validate (Json.obj oLax)).isSome = true := by
  refine ⟨?_, ?_, ?_, ?_⟩
  · exact (model_validate_spec oFull).1.mpr ⟨by decide, by decide⟩
  · exact (model_validate_spec oFull).2.1 rfl
  · exact (model_validate_spec oFull).2.2 "zzz" Json.null (by decide)
  · exact (model_validate_spec oLax).1.mpr ⟨by decide, by decide⟩

/-! ## C1: the liveness filter -/

theorem parse_iso8601_z_equiv (s : String) :
    parse_iso8601 (some (s ++ "Z")) = parse_iso8601 (some (s ++ "+00:00")) := by
  have e1 : parse_iso8601 (some (s ++ "Z")) =
      (if (s ++ "Z").data = [] then some pyDatetimeMax
       else fromisoformat
         (if (s ++ "Z").data.getLast? = some 'Z'
          then (s ++ "Z").data.dropLast ++ "+00:00".data
          else (s ++ "Z").data)) := rfl
  have e2 : parse_iso8601 (some (s ++ "+00:00")) =
      (if (s ++ "+00:00").data = [] then some pyDatetimeMax
       else fromisoformat
         (if (s ++ "+00:00").data.getLast? = some 'Z'
          then (s ++ "+00:00").data.dropLast ++ "+00:00".data
          else (s ++ "+00:00").data)) := rfl
  rw [e1, e2]
  have hz : (s ++ "Z").data = s.data ++ ['Z'] := by
    rw [String.data_append]
  have h0 : (s ++ "+00:00").data = s.data ++ "+00:00".data :=
    String.data_append _ _
  rw [hz, h0]
  have hdz : (['Z'] : List Char) ≠ [] := by decide
  have hd0 : "+00:00".data ≠ [] := by decide
  rw [if_neg (fun hc => hdz (List.append_eq_nil.mp hc).2)]
  rw [if_neg (fun hc => hd0 (List.append_eq_nil.mp hc).2)]
  rw [List.getLast?_concat, if_pos rfl, List.dropLast_concat]
  rw [show (s.data ++ "+00:00".data).getLast? = some '0' from by
    rw [List.getLast?_append]; rfl]
  rw [if_neg (by decide)]

/-- C1 (amended): for every market record whose end-date string is empty,
absent, or parses to an offset-aware timestamp, and every current UTC
time `n`, `is_live` returns true iff the four gating booleans are
favorable and the parsed end instant is strictly after `n`; an empty or
absent end-date string parses to the maximum representable timestamp
9999-12-31T23:59:59.999999+00:00 (so the time condition holds for every
`n` strictly before that maximum); and a string ending in `Z` is parsed
exactly as with an explicit `+00:00` UTC offset. -/
theorem is_live_spec (m : SimpleMarket) (n : Int)
    (hend : (endInstantUtc m).isSome = true) :
    (is_live m ⟨n, some 0⟩ = some true ↔
      (m.active = true ∧ m.closed = false ∧ m.archived = false ∧
       m.accepting_orders = true ∧ ∃ t, endInstantUtc m = some t ∧ n < t))
    ∧ ((m.end_date_iso = none ∨ m.end_date_iso = some "") →
        parse_iso8601 m.end_date_iso = some pyDatetimeMax)
    ∧ (∀ s : String,
        parse_iso8601 (some (s ++ "Z")) = parse_iso8601 (some (s ++ "+00:00"))) := by
  refine ⟨?_, ?_, fun s => parse_iso8601_z_equiv s⟩
  · rcases hp : parse_iso8601 m.end_date_iso with _ | dt
    · unfold endInstantUtc at hend
      rw [hp] at hend
      simp at hend
    · rcases htz : dt.tz with _ | off
      · unfold endInstantUtc at hend
        rw [hp] at hend
        simp [htz] at hend
      · have hei : endInstantUtc m = some (dt.wall - off) := by
          unfold endInstantUtc
          rw [hp]
          simp [htz]
        cases hA : m.active with
        | false => simp [is_live, hA]
        | true =>
          cases hC : m.closed with
          | true => simp [is_live, hA, hC]
          | false =>
            cases hAr : m.archived with
            | true => simp [is_live, hA, hC, hAr]
            | false =>
              cases hAcc : m.accepting_orders with
              | false => simp [is_live, hA, hC, hAr, hAcc]
              | true =>
                have hgate : (m.active && !m.closed && !m.archived &&
                    m.accepting_orders) = true := by
                  rw [hA, hC, hAr, hAcc]; rfl
                unfold is_live
                rw [if_pos hgate, hp]
                show pyGtDatetime dt ⟨n, some 0⟩ = some true ↔ _
                unfold pyGtDatetime
                simp [htz, hA, hC, hAr, hAcc, hei, sub_zero]
  · rintro (h | h) <;> rw [h] <;> rfl

/-- A record with favorable gating booleans and no end date. -/
def mEmptyEnd : SimpleMarket := mkSimple true false false true none none

/-- C1 counterexample: with favorable gating booleans and an absent
end-date string — which the code parses as `datetime.max`, a finite
timestamp — the time condition fails at `now = datetime.max`, so
`is_live` returns false although the claim says the time condition holds
for every now. -/
theorem is_live_claim_counterexample :
    mEmptyEnd.active = true ∧ mEmptyEnd.closed = false ∧
    mEmptyEnd.archived = false ∧ mEmptyEnd.accepting_orders = true ∧
    mEmptyEnd.end_date_iso = none ∧
    is_live mEmptyEnd pyDatetimeMax = some false := by
  refine ⟨rfl, rfl, rfl, rfl, rfl, ?_⟩
  decide

/-- A live record expiring at the far-future date of the specification's
test vector. -/
def mFuture : SimpleMarket :=
  mkSimple true false false true none (some "2999-01-01T00:00:00Z")

/-- C1 witness: the record with end date `2999-01-01T00:00:00Z` is live at
`now = 2025-10-12T00:00:00+00:00` (epoch microseconds). -/
theorem is_live_spec_witness :
    is_live mFuture ⟨1760227200000000, some 0⟩ = some true := by
  have h := (is_live_spec mFuture 1760227200000000 (by decide)).1
  refine h.mpr ⟨rfl, rfl, rfl, rfl, ?_⟩
  refine ⟨wallMicros 2999 1 1 0 0 0 0, by decide, by decide⟩

end PolyMCP
